import Mathlib

/-!
Verification of the audio-reactive effect system of norstep4700.com.

This file gives a shallow embedding, in Lean 4, of the core of the effect
system: the configuration resolver (`src/effect/config/resolver.ts`), the
shared math utilities (`utils/math.ts`), the numeric animators
(`MaskRadiusAnimator.ts`, `GradientTiltAnimator.ts`,
`ElementOpacityAnimator.ts`, `GradientScaleAnimator.ts`,
`GradientPositionAnimator.ts`), the audio data provider
(`AudioDataProvider.ts`) and the effect engine (`EffectEngine.ts`), and
proves or refutes the specification's claims about them.

Modelling conventions:
* JS numbers are modelled as real numbers `ℝ` in the animator / audio code
  and as rationals `ℚ` inside configuration records (JSON numbers), so that
  configuration facts stay decidable.
* Partial TS records (configuration layers) are modelled as functions
  `String → Option ConfigValue`; object spread `{...a, ...b}` becomes a
  pointwise `Option.orElse`.
* Methods mutating `this` become functions from state to state; calls to
  `performance.now()`, `Math.random()` and the audio analyzer become
  explicit arguments of the corresponding functions.
-/

set_option autoImplicit false

namespace Norstep

/-! ## Core types (src/unnamed/part_019)

`EffectIntensity` is a TS string enum; `DEFAULT_INTENSITY_MULTIPLIERS` maps
each level to the multiplier that scales the effect's output range. -/

inductive EffectIntensity where
  | subtle
  | mild
  | moderate
  | strong
  | extreme
deriving DecidableEq, Repr

/-- The string value of the TS enum member (`EffectIntensity.SUBTLE = "subtle"`, …). -/
def EffectIntensity.key : EffectIntensity → String
  | .subtle => "subtle"
  | .mild => "mild"
  | .moderate => "moderate"
  | .strong => "strong"
  | .extreme => "extreme"

/-- TS `DEFAULT_INTENSITY_MULTIPLIERS` (part_019 lines 24-30), over `ℝ` since the
factories hand these numbers to the animators. -/
noncomputable def DEFAULT_INTENSITY_MULTIPLIERS : EffectIntensity → ℝ
  | .subtle => 0.2
  | .mild => 0.4
  | .moderate => 0.6
  | .strong => 0.8
  | .extreme => 1.0

/-! ## Configuration data model and resolver (src/src/effect/config/resolver.ts)

A configuration layer is a partial record: a map from field names to JSON
values.  Numbers in the configuration document are rationals. -/

/-- A JSON value occurring in an effect configuration record. -/
inductive ConfigValue where
  | num (q : ℚ)
  | bool (b : Bool)
  | str (s : String)
deriving DecidableEq, Repr

/-- A partial parameter record (one configuration layer). -/
def Layer : Type := String → Option ConfigValue

/-- Object spread `{...a, ...b}`: keys of `b` win. -/
def spread (a b : Layer) : Layer := fun k => (b k).orElse (fun _ => a k)

/-- Per-effect-type configuration entry: `defaults`, optional
`intensityOverrides` keyed by level, optional `variants` keyed by name. -/
structure EffectTypeConfig where
  defaults : Layer
  intensityOverrides : EffectIntensity → Option Layer
  variants : String → Option Layer

/-- Normalization constants of the audio-analysis section. -/
structure NormalizationQ where
  rmsMultiplier : ℚ
  frequencyDivisor : ℚ

/-- The loaded `EffectSystemConfig` document (fields the resolver reads). -/
structure EffectSystemConfig where
  effects : String → Option EffectTypeConfig
  intensityMultipliers : EffectIntensity → ℚ
  normalization : NormalizationQ

/-- TS `EffectConfigResolver.resolveParams` (resolver.ts lines 48-86).

Resolution order, lowest to highest priority: defaults, intensity-specific
override, variant (if the name resolves), custom parameters.  The final
record overwrites `intensity` with the level passed in the call and sets
`enabled` to the custom parameters' `enabled` value if present, else `true`.
An unknown effect type throws in TS; here it yields `none`. -/
def resolveParams (cfg : EffectSystemConfig) (effectType : String)
    (intensity : EffectIntensity) (variant : Option String)
    (customParams : Option Layer) : Option Layer :=
  match cfg.effects effectType with
  | none => none
  | some effectConfig =>
    let resolved := effectConfig.defaults
    let resolved := match effectConfig.intensityOverrides intensity with
      | some intensityOverride => spread resolved intensityOverride
      | none => resolved
    let resolved := match variant.bind effectConfig.variants with
      | some variantConfig => spread resolved variantConfig
      | none => resolved
    let resolved := match customParams with
      | some cp => spread resolved cp
      | none => resolved
    some (fun k =>
      if k = "intensity" then some (.str intensity.key)
      else if k = "enabled" then
        some (((customParams.bind (fun cp => cp "enabled")).getD (.bool true)))
      else resolved k)

/-- The value the four configuration layers assign to key `k`, later layers
winning: custom parameters, then variant, then intensity override, then
defaults. -/
def layeredLookup (ec : EffectTypeConfig) (intensity : EffectIntensity)
    (variant : Option String) (customParams : Option Layer) (k : String) :
    Option ConfigValue :=
  ((customParams.bind (fun cp => cp k)).orElse (fun _ =>
    ((variant.bind ec.variants).bind (fun vc => vc k)).orElse (fun _ =>
      ((ec.intensityOverrides intensity).bind (fun ov => ov k)).orElse (fun _ =>
        ec.defaults k))))

/-- Pointwise characterization of `resolveParams`: the returned record reads,
at every key other than `intensity` and `enabled`, the four layers in
priority order, and `intensity` / `enabled` are injected as the code does. -/
theorem resolveParams_lookup (cfg : EffectSystemConfig) (effectType : String)
    (intensity : EffectIntensity) (variant : Option String)
    (customParams : Option Layer) (ec : EffectTypeConfig)
    (hc : cfg.effects effectType = some ec) :
    ∃ r, resolveParams cfg effectType intensity variant customParams = some r ∧
      (∀ k, k ≠ "intensity" → k ≠ "enabled" →
        r k = layeredLookup ec intensity variant customParams k) ∧
      r "intensity" = some (.str intensity.key) ∧
      r "enabled" =
        some ((customParams.bind (fun cp => cp "enabled")).getD (.bool true)) := by
  simp only [resolveParams, hc]
  refine ⟨_, rfl, ?_, ?_, ?_⟩
  · intro k hk1 hk2
    simp only [if_neg hk1, if_neg hk2, layeredLookup]
    cases hov : ec.intensityOverrides intensity <;>
      cases hvc : variant.bind ec.variants <;>
        cases hcp : customParams <;>
          simp [spread, hov, hvc, hcp, Option.orElse]
  · simp
  · simp

/-- C3: for every effect type present in the loaded configuration, every
intensity level, every variant name, and every (possibly empty)
custom-parameter record, `resolveParams` returns the merge of the four layers
in priority order defaults → intensity override → variant → custom
parameters, each later layer replacing only the keys it explicitly sets; the
result's `intensity` field always equals the intensity passed in the call,
and its `enabled` field equals the custom parameters' `enabled` value when
present and `true` otherwise. -/
theorem c3_resolveParams_four_layer_merge (cfg : EffectSystemConfig)
    (effectType : String) (intensity : EffectIntensity)
    (variant : Option String) (customParams : Option Layer)
    (ec : EffectTypeConfig) (hc : cfg.effects effectType = some ec) :
    ∃ r, resolveParams cfg effectType intensity variant customParams = some r ∧
      (∀ k, k ≠ "intensity" → k ≠ "enabled" →
        r k = layeredLookup ec intensity variant customParams k) ∧
      r "intensity" = some (.str intensity.key) ∧
      r "enabled" =
        some ((customParams.bind (fun cp => cp "enabled")).getD (.bool true)) :=
  resolveParams_lookup cfg effectType intensity variant customParams ec hc

/-! Concrete sample configuration used by witnesses: the mask-radius entry of
the configuration document, with the defaults the factory documents
(`MaskRadiusAnimator.ts` lines 174-184) and no overrides or variants. -/

/-- The `maskRadiusAnimator.defaults` layer of the sample configuration. -/
def sampleMaskDefaults : Layer := fun k =>
  if k = "audioSource" then some (.str "rms")
  else if k = "baseRadius" then some (.num 50)
  else if k = "minRadius" then some (.num 20)
  else if k = "maxRadius" then some (.num 80)
  else if k = "smoothing" then some (.num 0.7)
  else none

/-- The mask-radius entry of the sample configuration. -/
def sampleMaskEntry : EffectTypeConfig where
  defaults := sampleMaskDefaults
  intensityOverrides := fun _ => none
  variants := fun _ => none

/-- A sample loaded configuration document. -/
def sampleConfig : EffectSystemConfig where
  effects := fun t =>
    if t = "maskRadiusAnimator" then some sampleMaskEntry else none
  intensityMultipliers := fun i =>
    match i with
    | .subtle => 0.2
    | .mild => 0.4
    | .moderate => 0.6
    | .strong => 0.8
    | .extreme => 1.0
  normalization := { rmsMultiplier := 2, frequencyDivisor := 255 }

/-- Witness for C3 at a concrete configuration, intensity and custom layer. -/
theorem c3_resolveParams_four_layer_merge_witness :
    ∃ r, resolveParams sampleConfig "maskRadiusAnimator" .moderate none none =
        some r ∧
      (∀ k, k ≠ "intensity" → k ≠ "enabled" →
        r k = layeredLookup sampleMaskEntry .moderate none none k) ∧
      r "intensity" = some (.str EffectIntensity.moderate.key) ∧
      r "enabled" =
        some (((none : Option Layer).bind (fun cp => cp "enabled")).getD
          (.bool true)) :=
  c3_resolveParams_four_layer_merge sampleConfig "maskRadiusAnimator" .moderate
    none none sampleMaskEntry rfl

/-- A custom-parameter layer that raises `minRadius` above the default base. -/
def c7CustomLayer : Layer := fun k =>
  if k = "minRadius" then some (.num 100) else none

/-- Counterexample to C7: a `resolveParams` call that returns, whose resolved
record has `minRadius = 100` above `baseRadius = 50`, so `min ≤ base ≤ max`
does not hold after resolution. -/
theorem c7_resolver_bounds_counterexample :
    (resolveParams sampleConfig "maskRadiusAnimator" .moderate none
        (some c7CustomLayer)).isSome = true ∧
    (resolveParams sampleConfig "maskRadiusAnimator" .moderate none
        (some c7CustomLayer)).bind (fun r => r "minRadius") =
      some (.num 100) ∧
    (resolveParams sampleConfig "maskRadiusAnimator" .moderate none
        (some c7CustomLayer)).bind (fun r => r "baseRadius") =
      some (.num 50) ∧
    ¬ ((100 : ℚ) ≤ 50) :=
  ⟨rfl, rfl, rfl, by norm_num⟩

/-- C7 (amended): the resolved record always contains an `intensity` field;
it contains every field some layer sets (in particular `smoothing` whenever
the defaults set it); and the resolver never alters the bound fields, so
`min ≤ base ≤ max` holds after resolution whenever the four-layer merge
assigns bound values satisfying it — it is not enforced against custom
parameters that override a bound field inconsistently. -/
theorem c7_resolver_bounds_amended (cfg : EffectSystemConfig)
    (effectType : String) (intensity : EffectIntensity)
    (variant : Option String) (customParams : Option Layer)
    (ec : EffectTypeConfig) (hc : cfg.effects effectType = some ec) :
    ∃ r, resolveParams cfg effectType intensity variant customParams = some r ∧
      (r "intensity").isSome = true ∧
      (∀ k, k ≠ "intensity" → k ≠ "enabled" →
        (layeredLookup ec intensity variant customParams k).isSome = true →
        (r k).isSome = true) ∧
      (∀ kmin kbase kmax : String, ∀ qmin qbase qmax : ℚ,
        kmin ≠ "intensity" → kmin ≠ "enabled" →
        kbase ≠ "intensity" → kbase ≠ "enabled" →
        kmax ≠ "intensity" → kmax ≠ "enabled" →
        layeredLookup ec intensity variant customParams kmin =
          some (.num qmin) →
        layeredLookup ec intensity variant customParams kbase =
          some (.num qbase) →
        layeredLookup ec intensity variant customParams kmax =
          some (.num qmax) →
        qmin ≤ qbase → qbase ≤ qmax →
        r kmin = some (.num qmin) ∧ r kbase = some (.num qbase) ∧
          r kmax = some (.num qmax) ∧ qmin ≤ qbase ∧ qbase ≤ qmax) := by
  obtain ⟨r, hr, hpt, hint, hen⟩ :=
    resolveParams_lookup cfg effectType intensity variant customParams ec hc
  refine ⟨r, hr, ?_, ?_, ?_⟩
  · rw [hint]; rfl
  · intro k hk1 hk2 hsome
    rw [hpt k hk1 hk2]; exact hsome
  · intro kmin kbase kmax qmin qbase qmax h1 h2 h3 h4 h5 h6 hmin hbase hmax
      hmb hbM
    exact ⟨by rw [hpt kmin h1 h2]; exact hmin,
      by rw [hpt kbase h3 h4]; exact hbase,
      by rw [hpt kmax h5 h6]; exact hmax, hmb, hbM⟩

/-- Witness for the amended C7 at the sample configuration: with no custom
parameters the defaults' bounds 20 ≤ 50 ≤ 80 survive resolution. -/
theorem c7_resolver_bounds_amended_witness :
    ∃ r, resolveParams sampleConfig "maskRadiusAnimator" .moderate none none =
        some r ∧
      (r "intensity").isSome = true ∧
      (∀ k, k ≠ "intensity" → k ≠ "enabled" →
        (layeredLookup sampleMaskEntry .moderate none none k).isSome = true →
        (r k).isSome = true) ∧
      (∀ kmin kbase kmax : String, ∀ qmin qbase qmax : ℚ,
        kmin ≠ "intensity" → kmin ≠ "enabled" →
        kbase ≠ "intensity" → kbase ≠ "enabled" →
        kmax ≠ "intensity" → kmax ≠ "enabled" →
        layeredLookup sampleMaskEntry .moderate none none kmin =
          some (.num qmin) →
        layeredLookup sampleMaskEntry .moderate none none kbase =
          some (.num qbase) →
        layeredLookup sampleMaskEntry .moderate none none kmax =
          some (.num qmax) →
        qmin ≤ qbase → qbase ≤ qmax →
        r kmin = some (.num qmin) ∧ r kbase = some (.num qbase) ∧
          r kmax = some (.num qmax) ∧ qmin ≤ qbase ∧ qbase ≤ qmax) :=
  c7_resolver_bounds_amended sampleConfig "maskRadiusAnimator" .moderate none
    none sampleMaskEntry rfl

/-! ## Math utilities (src/unnamed/part_013, `utils/math.ts`)

JS numbers are modelled as reals; `Math.pow` on reals is `Real.rpow`. -/

/-- TS `clamp(value, min, max) = Math.min(Math.max(value, min), max)`. -/
noncomputable def clamp (value mn mx : ℝ) : ℝ := min (max value mn) mx

/-- TS `lerp(current, target, factor) = current + (target - current) * factor`. -/
noncomputable def lerp (current target factor : ℝ) : ℝ :=
  current + (target - current) * factor

/-- TS `smoothDamp` (part_013 lines 66-76): frame-rate independent exponential
smoothing, `lerp(current, target, 1 - smoothing ^ (deltaTime / 16.67))`. -/
noncomputable def smoothDamp (current target smoothing deltaTime : ℝ) : ℝ :=
  lerp current target (1 - smoothing ^ (deltaTime / (16.67 : ℝ)))

/-- The sequence of smoothed values obtained by iterating `smoothDamp` with a
constant raw target and fixed `deltaTime`, starting from `s0`. -/
noncomputable def smoothSeq (s0 raw smoothing deltaTime : ℝ) : ℕ → ℝ
  | 0 => s0
  | n + 1 => smoothDamp (smoothSeq s0 raw smoothing deltaTime n) raw smoothing
      deltaTime

/-- C5: for every smoothing factor in [0,1], every positive `deltaTime`, every
initial value and constant raw target, iterating the shared smoothing step is
monotone toward the raw value — each step's distance to `raw` is no larger
than the previous step's — and the sequence never crosses to the other side
of `raw`. -/
theorem c5_smoothing_monotone_no_overshoot (s0 raw smoothing dt : ℝ)
    (h0 : 0 ≤ smoothing) (h1 : smoothing ≤ 1) (hdt : 0 < dt) (n : ℕ) :
    |raw - smoothSeq s0 raw smoothing dt (n + 1)| ≤
      |raw - smoothSeq s0 raw smoothing dt n| ∧
    (smoothSeq s0 raw smoothing dt n ≤ raw →
      smoothSeq s0 raw smoothing dt (n + 1) ≤ raw) ∧
    (raw ≤ smoothSeq s0 raw smoothing dt n →
      raw ≤ smoothSeq s0 raw smoothing dt (n + 1)) := by
  have hc0 : 0 ≤ smoothing ^ (dt / (16.67 : ℝ)) := Real.rpow_nonneg h0 _
  have hc1 : smoothing ^ (dt / (16.67 : ℝ)) ≤ 1 :=
    Real.rpow_le_one h0 h1 (le_of_lt (div_pos hdt (by norm_num)))
  have key : raw - smoothSeq s0 raw smoothing dt (n + 1) =
      (raw - smoothSeq s0 raw smoothing dt n) *
        smoothing ^ (dt / (16.67 : ℝ)) := by
    simp only [smoothSeq, smoothDamp, lerp]
    ring
  refine ⟨?_, ?_, ?_⟩
  · rw [key, abs_mul, abs_of_nonneg hc0]
    exact mul_le_of_le_one_right (abs_nonneg _) hc1
  · intro h
    have hp : 0 ≤ (raw - smoothSeq s0 raw smoothing dt n) *
        smoothing ^ (dt / (16.67 : ℝ)) :=
      mul_nonneg (by linarith) hc0
    linarith [key ▸ hp]
  · intro h
    have hp : (raw - smoothSeq s0 raw smoothing dt n) *
        smoothing ^ (dt / (16.67 : ℝ)) ≤ 0 :=
      mul_nonpos_of_nonpos_of_nonneg (by linarith) hc0
    linarith [key ▸ hp]

/-- Witness for C5 at smoothing 1/2, deltaTime 16.67, target 0.6, step 3. -/
theorem c5_smoothing_monotone_no_overshoot_witness :
    |(0.6 : ℝ) - smoothSeq 0.5 0.6 (1/2) 16.67 (3 + 1)| ≤
      |(0.6 : ℝ) - smoothSeq 0.5 0.6 (1/2) 16.67 3| ∧
    (smoothSeq 0.5 0.6 (1/2) 16.67 3 ≤ (0.6 : ℝ) →
      smoothSeq 0.5 0.6 (1/2) 16.67 (3 + 1) ≤ (0.6 : ℝ)) ∧
    ((0.6 : ℝ) ≤ smoothSeq 0.5 0.6 (1/2) 16.67 3 →
      (0.6 : ℝ) ≤ smoothSeq 0.5 0.6 (1/2) 16.67 (3 + 1)) :=
  c5_smoothing_monotone_no_overshoot 0.5 0.6 (1/2) 16.67 (by norm_num)
    (by norm_num) (by norm_num) 3

/-! ## Audio frame data and animator parameter records

`AudioFrameData` (part_019): per-frame snapshot handed to every animator.
The two byte buffers are lists of naturals; the scalar metrics are reals. -/

structure AudioFrameData where
  frequencyData : List ℕ
  timeDomainData : List ℕ
  rms : ℝ
  bass : ℝ
  midLow : ℝ
  midHigh : ℝ
  treble : ℝ
  timestamp : ℝ

/-- The TS string union `"rms" | "bass" | "midLow" | "midHigh" | "treble"`. -/
inductive AudioAnalysisSource where
  | rms
  | bass
  | midLow
  | midHigh
  | treble
deriving DecidableEq, Repr

/-- Normalization constants the animators load from the configuration. -/
structure Normalization where
  rmsMultiplier : ℝ
  frequencyDivisor : ℝ

/-- The effective intensity multiplier:
`{...this.intensityMultipliers, ...customMultipliers}[intensity]` — the
per-instance override wins when it sets the level, else the factory table. -/
noncomputable def effectiveMultiplier (factoryMult : EffectIntensity → ℝ)
    (customMult : EffectIntensity → Option ℝ) (i : EffectIntensity) : ℝ :=
  (customMult i).getD (factoryMult i)

/-- The raw-value switch shared verbatim by the tilt, opacity, scale and
position animators: rms is scaled by the configured multiplier and clamped
to [0,1]; each band is divided by the configured frequency divisor. -/
noncomputable def normalizedRawValue (norm : Normalization)
    (source : AudioAnalysisSource) (audioData : AudioFrameData) : ℝ :=
  match source with
  | .rms => clamp (audioData.rms * norm.rmsMultiplier) 0 1
  | .bass => audioData.bass / norm.frequencyDivisor
  | .midLow => audioData.midLow / norm.frequencyDivisor
  | .midHigh => audioData.midHigh / norm.frequencyDivisor
  | .treble => audioData.treble / norm.frequencyDivisor

/-! ## MaskRadiusAnimator (src/src/effect/animators/MaskRadiusAnimator.ts) -/

structure MaskRadiusAnimatorParams where
  intensity : EffectIntensity
  audioSource : AudioAnalysisSource
  baseRadius : ℝ
  minRadius : ℝ
  maxRadius : ℝ
  smoothing : ℝ
  intensityMultipliers : EffectIntensity → Option ℝ

/-- The raw-value switch of `MaskRadiusAnimator.update` (lines 92-112); this
animator hard-codes the rms multiplier 2 and divisor 255 instead of reading
the configuration. -/
noncomputable def maskRadiusRawValue (source : AudioAnalysisSource)
    (audioData : AudioFrameData) : ℝ :=
  match source with
  | .rms => clamp (audioData.rms * 2) 0 1
  | .bass => audioData.bass / 255
  | .midLow => audioData.midLow / 255
  | .midHigh => audioData.midHigh / 255
  | .treble => audioData.treble / 255

/-- TS `MaskRadiusAnimatorEffectInstance.update` (lines 77-145), as a function
of the stored `smoothedValue`; returns the new smoothed value and the
`radius` output (the CSS string output is the same number formatted). -/
noncomputable def maskRadiusUpdate (p : MaskRadiusAnimatorParams)
    (factoryMult : EffectIntensity → ℝ) (smoothedValue : ℝ)
    (audioData : AudioFrameData) (deltaTime : ℝ) : ℝ × ℝ :=
  let rawValue := maskRadiusRawValue p.audioSource audioData
  let smoothed := smoothDamp smoothedValue rawValue p.smoothing deltaTime
  let multiplier := effectiveMultiplier factoryMult p.intensityMultipliers
    p.intensity
  let range := p.maxRadius - p.minRadius
  let effectiveRange := range * multiplier
  let effectiveMin := max p.minRadius (p.baseRadius - effectiveRange / 2)
  let effectiveMax := min p.maxRadius (p.baseRadius + effectiveRange / 2)
  let radius := effectiveMin + smoothed * (effectiveMax - effectiveMin)
  (smoothed, clamp radius p.minRadius p.maxRadius)

/-! ## GradientTiltAnimator
(src/src/effect/animators/gradientTiltAnimator/GradientTiltAnimator.ts) -/

structure GradientTiltAnimatorParams where
  intensity : EffectIntensity
  audioAnalysisSource : AudioAnalysisSource
  baseTilt : ℝ
  minTilt : ℝ
  maxTilt : ℝ
  smoothing : ℝ
  oscillate : Bool
  intensityMultipliers : EffectIntensity → Option ℝ

/-- TS `GradientTiltAnimatorEffectInstance.update` (lines 58-138); returns the
new smoothed value and the `tilt` output. -/
noncomputable def gradientTiltUpdate (p : GradientTiltAnimatorParams)
    (norm : Normalization) (factoryMult : EffectIntensity → ℝ)
    (smoothedValue : ℝ) (audioData : AudioFrameData) (deltaTime : ℝ) :
    ℝ × ℝ :=
  let rawValue := normalizedRawValue norm p.audioAnalysisSource audioData
  let smoothed := smoothDamp smoothedValue rawValue p.smoothing deltaTime
  let multiplier := effectiveMultiplier factoryMult p.intensityMultipliers
    p.intensity
  let range := p.maxTilt - p.minTilt
  let effectiveRange := range * multiplier
  let tilt :=
    if p.oscillate then
      let effectiveMin := max p.minTilt (p.baseTilt - effectiveRange / 2)
      let effectiveMax := min p.maxTilt (p.baseTilt + effectiveRange / 2)
      effectiveMin + smoothed * (effectiveMax - effectiveMin)
    else
      p.minTilt + smoothed * effectiveRange
  (smoothed, clamp tilt p.minTilt p.maxTilt)

/-! ## ElementOpacityAnimator
(src/src/effect/animators/elementOpacityAnimator/ElementOpacityAnimator.ts) -/

structure ElementOpacityAnimatorParams where
  intensity : EffectIntensity
  audioAnalysisSource : AudioAnalysisSource
  baseOpacity : ℝ
  minOpacity : ℝ
  maxOpacity : ℝ
  smoothing : ℝ
  intensityMultipliers : EffectIntensity → Option ℝ

/-- TS `ElementOpacityAnimatorEffectInstance.update` (lines 57-132); returns
the new smoothed value and the `opacity` output (the `normalizedOpacity`
output is `opacity / 100`). -/
noncomputable def elementOpacityUpdate (p : ElementOpacityAnimatorParams)
    (norm : Normalization) (factoryMult : EffectIntensity → ℝ)
    (smoothedValue : ℝ) (audioData : AudioFrameData) (deltaTime : ℝ) :
    ℝ × ℝ :=
  let rawValue := normalizedRawValue norm p.audioAnalysisSource audioData
  let smoothed := smoothDamp smoothedValue rawValue p.smoothing deltaTime
  let multiplier := effectiveMultiplier factoryMult p.intensityMultipliers
    p.intensity
  let range := p.maxOpacity - p.minOpacity
  let effectiveRange := range * multiplier
  let effectiveMin := max p.minOpacity (p.baseOpacity - effectiveRange / 2)
  let effectiveMax := min p.maxOpacity (p.baseOpacity + effectiveRange / 2)
  let opacity := effectiveMin + smoothed * (effectiveMax - effectiveMin)
  (smoothed, clamp opacity p.minOpacity p.maxOpacity)

/-! ## GradientScaleAnimator (src/unnamed/part_024) -/

structure GradientScaleAnimatorParams where
  intensity : EffectIntensity
  audioAnalysisSource : AudioAnalysisSource
  baseWidth : ℝ
  baseHeight : ℝ
  minScale : ℝ
  maxScale : ℝ
  smoothing : ℝ
  aspectLock : Bool
  intensityMultipliers : EffectIntensity → Option ℝ

/-- The two smoothed channel states of the scale animator. -/
structure GradientScaleState where
  smoothedWidthValue : ℝ
  smoothedHeightValue : ℝ

/-- The complementary audio source used for the height channel when
`aspectLock` is off (part_024 lines 136-143): bass↔treble, midLow↔midHigh,
anything else falls to midLow. -/
def scaleComplementSource : AudioAnalysisSource → AudioAnalysisSource
  | .bass => .treble
  | .treble => .bass
  | .midLow => .midHigh
  | .midHigh => .midLow
  | .rms => .midLow

/-- TS `GradientScaleAnimatorEffectInstance.update` (part_024 lines 63-178);
returns the new channel states and the `(width, height)` outputs.  Note the
outputs are `base * scaleFactor` with no final clamp. -/
noncomputable def gradientScaleUpdate (p : GradientScaleAnimatorParams)
    (norm : Normalization) (factoryMult : EffectIntensity → ℝ)
    (st : GradientScaleState) (audioData : AudioFrameData) (deltaTime : ℝ) :
    GradientScaleState × ℝ × ℝ :=
  let multiplier := effectiveMultiplier factoryMult p.intensityMultipliers
    p.intensity
  let scaleRange := p.maxScale - p.minScale
  let effectiveRange := scaleRange * multiplier
  let baseScale : ℝ := 1
  let effectiveMinScale := max p.minScale (baseScale - effectiveRange / 2)
  let effectiveMaxScale := min p.maxScale (baseScale + effectiveRange / 2)
  if p.aspectLock then
    let rawValue := normalizedRawValue norm p.audioAnalysisSource audioData
    let sW := smoothDamp st.smoothedWidthValue rawValue p.smoothing deltaTime
    let scaleFactor := effectiveMinScale +
      sW * (effectiveMaxScale - effectiveMinScale)
    (⟨sW, st.smoothedHeightValue⟩,
      p.baseWidth * scaleFactor, p.baseHeight * scaleFactor)
  else
    let widthRaw := normalizedRawValue norm p.audioAnalysisSource audioData
    let heightRaw := normalizedRawValue norm
      (scaleComplementSource p.audioAnalysisSource) audioData
    let sW := smoothDamp st.smoothedWidthValue widthRaw p.smoothing deltaTime
    let sH := smoothDamp st.smoothedHeightValue heightRaw p.smoothing
      deltaTime
    let widthScaleFactor := effectiveMinScale +
      sW * (effectiveMaxScale - effectiveMinScale)
    let heightScaleFactor := effectiveMinScale +
      sH * (effectiveMaxScale - effectiveMinScale)
    (⟨sW, sH⟩, p.baseWidth * widthScaleFactor, p.baseHeight * heightScaleFactor)

/-! ## GradientPositionAnimator
(src/src/effect/animators/gradientPositionAnimator/GradientPositionAnimator.ts) -/

inductive MovementStyle where
  | random
  | radial
  | bounce
deriving DecidableEq, Repr

structure GradientPositionAnimatorParams where
  intensity : EffectIntensity
  audioAnalysisSource : AudioAnalysisSource
  baseX : ℝ
  baseY : ℝ
  maxDeviation : ℝ
  smoothing : ℝ
  peakThreshold : ℝ
  peakDecay : ℝ
  movementStyle : MovementStyle
  intensityMultipliers : EffectIntensity → Option ℝ

/-- The mutable internal state of the position animator. -/
structure GradientPositionState where
  currentX : ℝ
  currentY : ℝ
  targetX : ℝ
  targetY : ℝ
  previousAudioLevel : ℝ
  peakOffsetX : ℝ
  peakOffsetY : ℝ
  radialAngle : ℝ

/-- TS `GradientPositionAnimatorEffectInstance.update` (lines 83-190).  The two
`Math.random()` draws of a tick are passed in as `rand1`, `rand2` (in call
order); returns the new state and the clamped `(x, y)` outputs. -/
noncomputable def gradientPositionUpdate (p : GradientPositionAnimatorParams)
    (norm : Normalization) (factoryMult : EffectIntensity → ℝ)
    (st : GradientPositionState) (audioData : AudioFrameData)
    (deltaTime rand1 rand2 : ℝ) : GradientPositionState × ℝ × ℝ :=
  let rawValue := normalizedRawValue norm p.audioAnalysisSource audioData
  let multiplier := effectiveMultiplier factoryMult p.intensityMultipliers
    p.intensity
  let effectiveDeviation := p.maxDeviation * multiplier
  let audioDelta := rawValue - st.previousAudioLevel
  let peaked :=
    if p.peakThreshold < audioDelta then
      match p.movementStyle with
      | .random =>
        ((rand1 - 0.5) * 2 * effectiveDeviation,
          (rand2 - 0.5) * 2 * effectiveDeviation, st.radialAngle)
      | .radial =>
        let angle := st.radialAngle + Real.pi / 4 + rand1 * Real.pi / 4
        (Real.cos angle * effectiveDeviation * rawValue,
          Real.sin angle * effectiveDeviation * rawValue, angle)
      | .bounce =>
        let angle := rand1 * Real.pi * 2
        let distance := effectiveDeviation * rawValue
        (Real.cos angle * distance, Real.sin angle * distance, st.radialAngle)
    else (st.peakOffsetX, st.peakOffsetY, st.radialAngle)
  let peakOffsetX := peaked.1 * p.peakDecay
  let peakOffsetY := peaked.2.1 * p.peakDecay
  let targetX := p.baseX + peakOffsetX
  let targetY := p.baseY + peakOffsetY
  let currentX := smoothDamp st.currentX targetX p.smoothing deltaTime
  let currentY := smoothDamp st.currentY targetY p.smoothing deltaTime
  (⟨currentX, currentY, targetX, targetY, rawValue, peakOffsetX, peakOffsetY,
      peaked.2.2⟩,
    clamp currentX 0 100, clamp currentY 0 100)

/-! ## Clamp lemmas shared by the animator claims -/

theorem le_clamp (v mn mx : ℝ) (h : mn ≤ mx) : mn ≤ clamp v mn mx :=
  le_min (le_max_right v mn) h

theorem clamp_le (v mn mx : ℝ) : clamp v mn mx ≤ mx := min_le_right _ _

theorem clamp_eq_of_mem (v mn mx : ℝ) (h1 : mn ≤ v) (h2 : v ≤ mx) :
    clamp v mn mx = v := by
  rw [clamp, max_eq_left h1, min_eq_left h2]

/-! ## C1: the end-to-end mask-radius scenario -/

/-- The parameter set of the spec's end-to-end scenario: base 50, min 20,
max 80, intensity moderate, source rms, smoothing 0 (instant). -/
noncomputable def c1Params : MaskRadiusAnimatorParams where
  intensity := .moderate
  audioSource := .rms
  baseRadius := 50
  minRadius := 20
  maxRadius := 80
  smoothing := 0
  intensityMultipliers := fun _ => none

/-- The scenario's snapshot: rms 0.3 (raw 0.6 after the ×2 normalization). -/
noncomputable def c1Snapshot : AudioFrameData :=
  ⟨[], [], 0.3, 0, 0, 0, 0, 0⟩

/-- One update of the scenario, for any positive `deltaTime` and any stored
smoothed value, produces radius 53.6: the smoothed value is the raw 0.6
(smoothing 0 is instant), the effective range is [32,68], and the code maps
0.6 into it as 32 + 0.6·(68−32) = 53.6. -/
theorem maskRadius_c1_eval (st dt : ℝ) (hdt : 0 < dt) :
    (maskRadiusUpdate c1Params DEFAULT_INTENSITY_MULTIPLIERS st c1Snapshot
      dt).2 = 53.6 := by
  have hz : (0 : ℝ) ^ (dt / (16.67 : ℝ)) = 0 :=
    Real.zero_rpow (ne_of_gt (div_pos hdt (by norm_num)))
  simp only [maskRadiusUpdate, maskRadiusRawValue, c1Params, c1Snapshot,
    effectiveMultiplier, DEFAULT_INTENSITY_MULTIPLIERS, smoothDamp, lerp,
    clamp, Option.getD]
  rw [hz]
  norm_num [max_def, min_def]

/-- Counterexample to C1: at the scenario's exact input the update returns
radius 53.6, not the claimed 41.6. -/
theorem c1_mask_radius_scenario_counterexample :
    (maskRadiusUpdate c1Params DEFAULT_INTENSITY_MULTIPLIERS 0.5 c1Snapshot
      16.67).2 = 53.6 ∧ (53.6 : ℝ) ≠ 41.6 :=
  ⟨maskRadius_c1_eval 0.5 16.67 (by norm_num), by norm_num⟩

/-- C1 (amended): the scenario produces radius 53.6 = 32 + 0.6·(68−32),
mapping the smoothed value 0.6 into the base-centered effective range
[32,68] (whereas 20 + 0.6·((80−20)·0.6) = 41.6 is not what the
centered-range arithmetic yields). -/
theorem c1_mask_radius_scenario_amended (st dt : ℝ) (hdt : 0 < dt) :
    (maskRadiusUpdate c1Params DEFAULT_INTENSITY_MULTIPLIERS st c1Snapshot
      dt).2 = 32 + 0.6 * (68 - 32) := by
  rw [maskRadius_c1_eval st dt hdt]
  norm_num

/-- Witness for the amended C1 at `deltaTime = 16.67`, stored value 0.5. -/
theorem c1_mask_radius_scenario_amended_witness :
    (maskRadiusUpdate c1Params DEFAULT_INTENSITY_MULTIPLIERS 0.5 c1Snapshot
      16.67).2 = 32 + 0.6 * (68 - 32) :=
  c1_mask_radius_scenario_amended 0.5 16.67 (by norm_num)

/-! ## C6: the tilt animator's non-oscillating path -/

/-- Tilt parameters with `oscillate = false`, bounds [0,10], moderate
intensity (default multiplier 0.6), smoothing 0. -/
noncomputable def c6Params : GradientTiltAnimatorParams where
  intensity := .moderate
  audioAnalysisSource := .rms
  baseTilt := 5
  minTilt := 0
  maxTilt := 10
  smoothing := 0
  oscillate := false
  intensityMultipliers := fun _ => none

/-- The configured normalization constants (rms ×2, bands ÷255). -/
noncomputable def stdNorm : Normalization := ⟨2, 255⟩

/-- A snapshot whose rms 0.5 normalizes to the raw value 1. -/
noncomputable def c6Snapshot : AudioFrameData :=
  ⟨[], [], 0.5, 0, 0, 0, 0, 0⟩

/-- With smoothing 0 the smoothed value is the raw 1, and the
non-oscillating tilt output is 0 + 1·(10·0.6) = 6. -/
theorem tilt_c6_eval (st dt : ℝ) (hdt : 0 < dt) :
    (gradientTiltUpdate c6Params stdNorm DEFAULT_INTENSITY_MULTIPLIERS st
      c6Snapshot dt).2 = 6 := by
  have hz : (0 : ℝ) ^ (dt / (16.67 : ℝ)) = 0 :=
    Real.zero_rpow (ne_of_gt (div_pos hdt (by norm_num)))
  simp only [gradientTiltUpdate, normalizedRawValue, c6Params, c6Snapshot,
    stdNorm, effectiveMultiplier, DEFAULT_INTENSITY_MULTIPLIERS, smoothDamp,
    lerp, clamp, Option.getD, Bool.false_eq_true, if_false]
  rw [hz]
  norm_num [max_def, min_def]

/-- Counterexample to C6: with the smoothed value 1 the non-oscillating
tilt output is 6, not the `maxTilt = 10` that a linear map across the
entire [minTilt, maxTilt] range would give — the code scales the range by
the intensity multiplier 0.6. -/
theorem c6_tilt_linear_map_counterexample :
    (gradientTiltUpdate c6Params stdNorm DEFAULT_INTENSITY_MULTIPLIERS 0.5
      c6Snapshot 16.67).2 = 6 ∧ (6 : ℝ) ≠ 10 :=
  ⟨tilt_c6_eval 0.5 16.67 (by norm_num), by norm_num⟩

/-- C6 (amended): with `oscillate = false` the tilt is the linear map of the
smoothed value `s` across `[minTilt, minTilt + (maxTilt − minTilt)·m]` where
`m` is the effective intensity multiplier (so `s = 1` reaches `maxTilt` only
when `m = 1`); the output stays within `[minTilt, maxTilt]` on both paths;
and with `oscillate = true` the effective range is centered on `baseTilt`
before the clamp. -/
theorem c6_tilt_linear_map_amended (p : GradientTiltAnimatorParams)
    (norm : Normalization) (fm : EffectIntensity → ℝ) (st : ℝ)
    (a : AudioFrameData) (dt s m : ℝ)
    (hs : smoothDamp st (normalizedRawValue norm p.audioAnalysisSource a)
      p.smoothing dt = s)
    (hm : effectiveMultiplier fm p.intensityMultipliers p.intensity = m)
    (hrange : p.minTilt ≤ p.maxTilt) (hm0 : 0 ≤ m) (hm1 : m ≤ 1)
    (hs0 : 0 ≤ s) (hs1 : s ≤ 1) :
    (p.oscillate = false →
      (gradientTiltUpdate p norm fm st a dt).2 =
        p.minTilt + s * ((p.maxTilt - p.minTilt) * m)) ∧
    p.minTilt ≤ (gradientTiltUpdate p norm fm st a dt).2 ∧
    (gradientTiltUpdate p norm fm st a dt).2 ≤ p.maxTilt ∧
    (p.oscillate = true →
      (gradientTiltUpdate p norm fm st a dt).2 =
        clamp (max p.minTilt (p.baseTilt - (p.maxTilt - p.minTilt) * m / 2) +
          s * (min p.maxTilt (p.baseTilt + (p.maxTilt - p.minTilt) * m / 2) -
            max p.minTilt (p.baseTilt - (p.maxTilt - p.minTilt) * m / 2)))
          p.minTilt p.maxTilt) := by
  simp only [gradientTiltUpdate, hs, hm]
  cases hosc : p.oscillate
  case false =>
    rw [if_neg (by simp)]
    have hngz : 0 ≤ p.maxTilt - p.minTilt := by linarith
    have hrm : (p.maxTilt - p.minTilt) * m ≤ p.maxTilt - p.minTilt :=
      mul_le_of_le_one_right hngz hm1
    have hrm0 : 0 ≤ (p.maxTilt - p.minTilt) * m := mul_nonneg hngz hm0
    have hsm : s * ((p.maxTilt - p.minTilt) * m) ≤
        (p.maxTilt - p.minTilt) * m := mul_le_of_le_one_left hrm0 hs1
    have hsm0 : 0 ≤ s * ((p.maxTilt - p.minTilt) * m) := mul_nonneg hs0 hrm0
    have h1 : p.minTilt ≤ p.minTilt + s * ((p.maxTilt - p.minTilt) * m) := by
      linarith
    have h2 : p.minTilt + s * ((p.maxTilt - p.minTilt) * m) ≤ p.maxTilt := by
      linarith
    refine ⟨fun _ => clamp_eq_of_mem _ _ _ h1 h2, ?_, ?_, ?_⟩
    · rw [clamp_eq_of_mem _ _ _ h1 h2]; exact h1
    · rw [clamp_eq_of_mem _ _ _ h1 h2]; exact h2
    · intro hcontra; exact absurd hcontra (by simp)
  case true =>
    rw [if_pos rfl]
    exact ⟨fun hcontra => absurd hcontra (by simp),
      le_clamp _ _ _ hrange, clamp_le _ _ _, fun _ => rfl⟩

/-- Witness for the amended C6 at concrete parameters (the non-oscillating
C6 scenario, smoothed value 1, multiplier 0.6). -/
theorem c6_tilt_linear_map_amended_witness :
    (c6Params.oscillate = false →
      (gradientTiltUpdate c6Params stdNorm DEFAULT_INTENSITY_MULTIPLIERS 0.5
        c6Snapshot 16.67).2 =
        c6Params.minTilt + 1 * ((c6Params.maxTilt - c6Params.minTilt) * 0.6)) ∧
    c6Params.minTilt ≤ (gradientTiltUpdate c6Params stdNorm
      DEFAULT_INTENSITY_MULTIPLIERS 0.5 c6Snapshot 16.67).2 ∧
    (gradientTiltUpdate c6Params stdNorm DEFAULT_INTENSITY_MULTIPLIERS 0.5
      c6Snapshot 16.67).2 ≤ c6Params.maxTilt ∧
    (c6Params.oscillate = true →
      (gradientTiltUpdate c6Params stdNorm DEFAULT_INTENSITY_MULTIPLIERS 0.5
        c6Snapshot 16.67).2 =
        clamp (max c6Params.minTilt (c6Params.baseTilt -
            (c6Params.maxTilt - c6Params.minTilt) * 0.6 / 2) +
          1 * (min c6Params.maxTilt (c6Params.baseTilt +
              (c6Params.maxTilt - c6Params.minTilt) * 0.6 / 2) -
            max c6Params.minTilt (c6Params.baseTilt -
              (c6Params.maxTilt - c6Params.minTilt) * 0.6 / 2)))
          c6Params.minTilt c6Params.maxTilt) := by
  refine c6_tilt_linear_map_amended c6Params stdNorm
    DEFAULT_INTENSITY_MULTIPLIERS 0.5 c6Snapshot 16.67 1 0.6 ?_ rfl ?_ ?_ ?_
    ?_ ?_
  · have hz : (0 : ℝ) ^ ((16.67 : ℝ) / (16.67 : ℝ)) = 0 :=
      Real.zero_rpow (by norm_num)
    simp only [c6Params, c6Snapshot, stdNorm, normalizedRawValue, smoothDamp,
      lerp, clamp]
    rw [hz]
    norm_num [max_def, min_def]
  · simp only [c6Params]; norm_num
  · norm_num
  · norm_num
  · norm_num
  · norm_num

/-! ## C2: output bounds of the numeric animators -/

/-- Scale parameters with a negative per-instance multiplier override for
the moderate level: bounds [0.8, 1.2] around the fixed base scale 1. -/
noncomputable def c2ScaleParams : GradientScaleAnimatorParams where
  intensity := .moderate
  audioAnalysisSource := .rms
  baseWidth := 1
  baseHeight := 1
  minScale := 0.8
  maxScale := 1.2
  smoothing := 0.5
  aspectLock := true
  intensityMultipliers := fun i => if i = .moderate then some (-10) else none

/-- A fully silent snapshot (all metrics zero). -/
noncomputable def silentSnapshot : AudioFrameData := ⟨[], [], 0, 0, 0, 0, 0, 0⟩

/-- Counterexample to C2: the gradient scale animator has no final clamp,
and under a custom per-instance multiplier override of −10 (with valid
bounds 0.8 ≤ 1 ≤ 1.2 and the smoothed value 0 ∈ [0,1]) one update outputs
width 3, far outside [0.8, 1.2]. -/
theorem c2_animator_bounds_counterexample :
    ((0.8 : ℝ) ≤ 1 ∧ (1 : ℝ) ≤ 1.2) ∧
    smoothDamp 0 (normalizedRawValue stdNorm .rms silentSnapshot)
      c2ScaleParams.smoothing 16.67 = 0 ∧
    (gradientScaleUpdate c2ScaleParams stdNorm DEFAULT_INTENSITY_MULTIPLIERS
      ⟨0, 0⟩ silentSnapshot 16.67).2.1 = 3 ∧
    ¬ ((3 : ℝ) ≤ 1.2) := by
  have hraw : normalizedRawValue stdNorm .rms silentSnapshot = 0 := by
    simp only [normalizedRawValue, stdNorm, silentSnapshot, clamp]
    norm_num [max_def, min_def]
  have hsm : ∀ sm : ℝ, smoothDamp 0 (0 : ℝ) sm 16.67 = 0 := by
    intro sm
    simp only [smoothDamp, lerp]
    ring
  refine ⟨⟨by norm_num, by norm_num⟩, by rw [hraw]; exact hsm _, ?_, by norm_num⟩
  simp only [gradientScaleUpdate, c2ScaleParams, effectiveMultiplier,
    Option.getD, hraw, hsm]
  norm_num [max_def, min_def]

/-- Bounds for the centered scale factor used by the scale animator: with
`minScale ≤ 1 ≤ maxScale`, a nonnegative effective multiplier and a smoothed
value in [0,1], the factor stays within `[minScale, maxScale]`. -/
theorem scale_factor_bounds (mnS mxS m s : ℝ) (h1 : mnS ≤ 1) (h2 : 1 ≤ mxS)
    (hm0 : 0 ≤ m) (hs0 : 0 ≤ s) (hs1 : s ≤ 1) :
    mnS ≤ max mnS (1 - (mxS - mnS) * m / 2) +
        s * (min mxS (1 + (mxS - mnS) * m / 2) -
          max mnS (1 - (mxS - mnS) * m / 2)) ∧
      max mnS (1 - (mxS - mnS) * m / 2) +
        s * (min mxS (1 + (mxS - mnS) * m / 2) -
          max mnS (1 - (mxS - mnS) * m / 2)) ≤ mxS := by
  set eR := (mxS - mnS) * m with heR
  have heR0 : 0 ≤ eR := mul_nonneg (by linarith) hm0
  set eMin := max mnS (1 - eR / 2) with hemin
  set eMax := min mxS (1 + eR / 2) with hemax
  have e1 : mnS ≤ eMin := le_max_left _ _
  have e2 : eMax ≤ mxS := min_le_left _ _
  have e3 : eMin ≤ 1 := max_le h1 (by linarith)
  have e4 : 1 ≤ eMax := le_min h2 (by linarith)
  have d0 : 0 ≤ eMax - eMin := by linarith
  have f1 : 0 ≤ s * (eMax - eMin) := mul_nonneg hs0 d0
  have f2 : s * (eMax - eMin) ≤ eMax - eMin := mul_le_of_le_one_left d0 hs1
  constructor <;> linarith

/-- C2 (amended): the mask-radius, tilt and opacity animators hard-clamp, so
their outputs lie in the caller-declared `[min, max]` for every parameter
set with `min ≤ max`, every multiplier override and every smoothed value;
the position animator's outputs lie in [0,100] on each axis; the scale
animator's outputs are `base · factor` with no final clamp, and its scale
factors lie in `[minScale, maxScale]` provided the effective multiplier is
nonnegative, `minScale ≤ 1 ≤ maxScale`, and the smoothed channel values lie
in [0,1]. -/
theorem c2_animator_output_bounds_amended :
    (∀ (p : MaskRadiusAnimatorParams) (fm : EffectIntensity → ℝ) (st : ℝ)
        (a : AudioFrameData) (dt : ℝ), p.minRadius ≤ p.maxRadius →
      p.minRadius ≤ (maskRadiusUpdate p fm st a dt).2 ∧
        (maskRadiusUpdate p fm st a dt).2 ≤ p.maxRadius) ∧
    (∀ (p : GradientTiltAnimatorParams) (norm : Normalization)
        (fm : EffectIntensity → ℝ) (st : ℝ) (a : AudioFrameData) (dt : ℝ),
        p.minTilt ≤ p.maxTilt →
      p.minTilt ≤ (gradientTiltUpdate p norm fm st a dt).2 ∧
        (gradientTiltUpdate p norm fm st a dt).2 ≤ p.maxTilt) ∧
    (∀ (p : ElementOpacityAnimatorParams) (norm : Normalization)
        (fm : EffectIntensity → ℝ) (st : ℝ) (a : AudioFrameData) (dt : ℝ),
        p.minOpacity ≤ p.maxOpacity →
      p.minOpacity ≤ (elementOpacityUpdate p norm fm st a dt).2 ∧
        (elementOpacityUpdate p norm fm st a dt).2 ≤ p.maxOpacity) ∧
    (∀ (p : GradientPositionAnimatorParams) (norm : Normalization)
        (fm : EffectIntensity → ℝ) (st : GradientPositionState)
        (a : AudioFrameData) (dt r1 r2 : ℝ),
      0 ≤ (gradientPositionUpdate p norm fm st a dt r1 r2).2.1 ∧
        (gradientPositionUpdate p norm fm st a dt r1 r2).2.1 ≤ 100 ∧
        0 ≤ (gradientPositionUpdate p norm fm st a dt r1 r2).2.2 ∧
        (gradientPositionUpdate p norm fm st a dt r1 r2).2.2 ≤ 100) ∧
    (∀ (p : GradientScaleAnimatorParams) (norm : Normalization)
        (fm : EffectIntensity → ℝ) (st : GradientScaleState)
        (a : AudioFrameData) (dt m : ℝ),
        effectiveMultiplier fm p.intensityMultipliers p.intensity = m →
        p.minScale ≤ 1 → 1 ≤ p.maxScale → 0 ≤ m →
      ∃ fw fh, (gradientScaleUpdate p norm fm st a dt).2.1 = p.baseWidth * fw ∧
        (gradientScaleUpdate p norm fm st a dt).2.2 = p.baseHeight * fh ∧
        (smoothDamp st.smoothedWidthValue
            (normalizedRawValue norm p.audioAnalysisSource a) p.smoothing dt ∈
              Set.Icc (0 : ℝ) 1 →
          smoothDamp st.smoothedHeightValue
            (normalizedRawValue norm (scaleComplementSource
              p.audioAnalysisSource) a) p.smoothing dt ∈ Set.Icc (0 : ℝ) 1 →
          p.minScale ≤ fw ∧ fw ≤ p.maxScale ∧ p.minScale ≤ fh ∧
            fh ≤ p.maxScale)) := by
  refine ⟨?_, ?_, ?_, ?_, ?_⟩
  · intro p fm st a dt h
    simp only [maskRadiusUpdate]
    exact ⟨le_clamp _ _ _ h, clamp_le _ _ _⟩
  · intro p norm fm st a dt h
    simp only [gradientTiltUpdate]
    exact ⟨le_clamp _ _ _ h, clamp_le _ _ _⟩
  · intro p norm fm st a dt h
    simp only [elementOpacityUpdate]
    exact ⟨le_clamp _ _ _ h, clamp_le _ _ _⟩
  · intro p norm fm st a dt r1 r2
    simp only [gradientPositionUpdate]
    exact ⟨le_clamp _ _ _ (by norm_num), clamp_le _ _ _,
      le_clamp _ _ _ (by norm_num), clamp_le _ _ _⟩
  · intro p norm fm st a dt m hm h1 h2 hm0
    simp only [gradientScaleUpdate, hm]
    cases hal : p.aspectLock
    case false =>
      rw [if_neg (by simp)]
      refine ⟨_, _, rfl, rfl, ?_⟩
      intro hw hh
      have bw := scale_factor_bounds p.minScale p.maxScale m
        (smoothDamp st.smoothedWidthValue
          (normalizedRawValue norm p.audioAnalysisSource a) p.smoothing dt)
        h1 h2 hm0 hw.1 hw.2
      have bh := scale_factor_bounds p.minScale p.maxScale m
        (smoothDamp st.smoothedHeightValue
          (normalizedRawValue norm (scaleComplementSource
            p.audioAnalysisSource) a) p.smoothing dt)
        h1 h2 hm0 hh.1 hh.2
      exact ⟨bw.1, bw.2, bh.1, bh.2⟩
    case true =>
      rw [if_pos rfl]
      refine ⟨_, _, rfl, rfl, ?_⟩
      intro hw _
      have bw := scale_factor_bounds p.minScale p.maxScale m
        (smoothDamp st.smoothedWidthValue
          (normalizedRawValue norm p.audioAnalysisSource a) p.smoothing dt)
        h1 h2 hm0 hw.1 hw.2
      exact ⟨bw.1, bw.2, bw.1, bw.2⟩

/-- Concrete opacity parameters used by the C2 witness. -/
noncomputable def c2OpacityParams : ElementOpacityAnimatorParams where
  intensity := .moderate
  audioAnalysisSource := .midHigh
  baseOpacity := 50
  minOpacity := 0
  maxOpacity := 100
  smoothing := 0.7
  intensityMultipliers := fun _ => none

/-- Concrete position parameters used by the C2 witness. -/
noncomputable def c2PositionParams : GradientPositionAnimatorParams where
  intensity := .moderate
  audioAnalysisSource := .rms
  baseX := 50
  baseY := 50
  maxDeviation := 15
  smoothing := 0.3
  peakThreshold := 0.15
  peakDecay := 0.85
  movementStyle := .random
  intensityMultipliers := fun _ => none

/-- Concrete position state used by the C2 witness. -/
noncomputable def c2PositionState : GradientPositionState :=
  ⟨50, 50, 50, 50, 0, 0, 0, 0⟩

/-- Concrete scale parameters (no multiplier override) for the C2 witness. -/
noncomputable def c2ScaleParamsOk : GradientScaleAnimatorParams where
  intensity := .moderate
  audioAnalysisSource := .rms
  baseWidth := 100
  baseHeight := 100
  minScale := 0.8
  maxScale := 1.2
  smoothing := 0.5
  aspectLock := true
  intensityMultipliers := fun _ => none

/-- Witness for the amended C2, instantiating every conjunct at concrete
parameters and discharging the bound hypotheses there. -/
theorem c2_animator_output_bounds_amended_witness :
    (c1Params.minRadius ≤ (maskRadiusUpdate c1Params
        DEFAULT_INTENSITY_MULTIPLIERS 0.5 c1Snapshot 16.67).2 ∧
      (maskRadiusUpdate c1Params DEFAULT_INTENSITY_MULTIPLIERS 0.5 c1Snapshot
        16.67).2 ≤ c1Params.maxRadius) ∧
    (c6Params.minTilt ≤ (gradientTiltUpdate c6Params stdNorm
        DEFAULT_INTENSITY_MULTIPLIERS 0.5 c6Snapshot 16.67).2 ∧
      (gradientTiltUpdate c6Params stdNorm DEFAULT_INTENSITY_MULTIPLIERS 0.5
        c6Snapshot 16.67).2 ≤ c6Params.maxTilt) ∧
    (c2OpacityParams.minOpacity ≤ (elementOpacityUpdate c2OpacityParams
        stdNorm DEFAULT_INTENSITY_MULTIPLIERS 0.5 c6Snapshot 16.67).2 ∧
      (elementOpacityUpdate c2OpacityParams stdNorm
        DEFAULT_INTENSITY_MULTIPLIERS 0.5 c6Snapshot 16.67).2 ≤
        c2OpacityParams.maxOpacity) ∧
    (0 ≤ (gradientPositionUpdate c2PositionParams stdNorm
        DEFAULT_INTENSITY_MULTIPLIERS c2PositionState c6Snapshot 16.67 0.3
        0.7).2.1 ∧
      (gradientPositionUpdate c2PositionParams stdNorm
        DEFAULT_INTENSITY_MULTIPLIERS c2PositionState c6Snapshot 16.67 0.3
        0.7).2.1 ≤ 100 ∧
      0 ≤ (gradientPositionUpdate c2PositionParams stdNorm
        DEFAULT_INTENSITY_MULTIPLIERS c2PositionState c6Snapshot 16.67 0.3
        0.7).2.2 ∧
      (gradientPositionUpdate c2PositionParams stdNorm
        DEFAULT_INTENSITY_MULTIPLIERS c2PositionState c6Snapshot 16.67 0.3
        0.7).2.2 ≤ 100) ∧
    (∃ fw fh, (gradientScaleUpdate c2ScaleParamsOk stdNorm
          DEFAULT_INTENSITY_MULTIPLIERS ⟨0.5, 0.5⟩ silentSnapshot 16.67).2.1 =
        c2ScaleParamsOk.baseWidth * fw ∧
      (gradientScaleUpdate c2ScaleParamsOk stdNorm
        DEFAULT_INTENSITY_MULTIPLIERS ⟨0.5, 0.5⟩ silentSnapshot 16.67).2.2 =
        c2ScaleParamsOk.baseHeight * fh ∧
      (smoothDamp (GradientScaleState.smoothedWidthValue ⟨0.5, 0.5⟩)
          (normalizedRawValue stdNorm c2ScaleParamsOk.audioAnalysisSource
            silentSnapshot) c2ScaleParamsOk.smoothing 16.67 ∈
            Set.Icc (0 : ℝ) 1 →
        smoothDamp (GradientScaleState.smoothedHeightValue ⟨0.5, 0.5⟩)
          (normalizedRawValue stdNorm (scaleComplementSource
            c2ScaleParamsOk.audioAnalysisSource) silentSnapshot)
          c2ScaleParamsOk.smoothing 16.67 ∈ Set.Icc (0 : ℝ) 1 →
        c2ScaleParamsOk.minScale ≤ fw ∧ fw ≤ c2ScaleParamsOk.maxScale ∧
          c2ScaleParamsOk.minScale ≤ fh ∧ fh ≤ c2ScaleParamsOk.maxScale)) :=
  ⟨c2_animator_output_bounds_amended.1 c1Params DEFAULT_INTENSITY_MULTIPLIERS
      0.5 c1Snapshot 16.67 (by norm_num [c1Params]),
    c2_animator_output_bounds_amended.2.1 c6Params stdNorm
      DEFAULT_INTENSITY_MULTIPLIERS 0.5 c6Snapshot 16.67
      (by norm_num [c6Params]),
    c2_animator_output_bounds_amended.2.2.1 c2OpacityParams stdNorm
      DEFAULT_INTENSITY_MULTIPLIERS 0.5 c6Snapshot 16.67
      (by norm_num [c2OpacityParams]),
    c2_animator_output_bounds_amended.2.2.2.1 c2PositionParams stdNorm
      DEFAULT_INTENSITY_MULTIPLIERS c2PositionState c6Snapshot 16.67 0.3 0.7,
    c2_animator_output_bounds_amended.2.2.2.2 c2ScaleParamsOk stdNorm
      DEFAULT_INTENSITY_MULTIPLIERS ⟨0.5, 0.5⟩ silentSnapshot 16.67 0.6 rfl
      (by norm_num [c2ScaleParamsOk]) (by norm_num [c2ScaleParamsOk])
      (by norm_num)⟩

/-! ## Association-list helpers

`Map<string, T>` is modelled as an insertion-ordered association list with
unique keys; `get`, `set` and `delete` become the following helpers. -/

def alistLookup {α : Type} : List (String × α) → String → Option α
  | [], _ => none
  | (k, v) :: t, key => if k = key then some v else alistLookup t key

def alistSet {α : Type} : List (String × α) → String → α → List (String × α)
  | [], key, v => [(key, v)]
  | (k, v') :: t, key, v =>
    if k = key then (key, v) :: t else (k, v') :: alistSet t key v

def alistErase {α : Type} : List (String × α) → String → List (String × α)
  | [], _ => []
  | (k, v) :: t, key => if k = key then t else (k, v) :: alistErase t key

/-! ## AudioDataProvider (src/src/effect/core/AudioDataProvider.ts)

An `AnalyserNode` is abstracted to the byte data it would write into the
two shared buffers.  `performance.now()` is the explicit `now` argument. -/

/-- An analyzer handle: the frequency and waveform bytes it produces. -/
structure Analyzer where
  freqData : List ℕ
  timeData : List ℕ

/-- An inclusive frequency-bin range; `stop` is the config's `end` field
(`end` is a Lean keyword). -/
structure BinRange where
  start : ℤ
  stop : ℤ

/-- The per-band bin ranges from the audio-analysis configuration. -/
structure FrequencyBands where
  bass : BinRange
  midLow : BinRange
  midHigh : BinRange
  treble : BinRange

/-- TS `computeRMS` (AudioDataProvider.ts lines 91-102): normalize each
waveform byte to −1..1 around 128, average the squares, take the root. -/
noncomputable def computeRMS (buf : List ℕ) : ℝ :=
  Real.sqrt ((buf.map (fun b => (((b : ℝ) - 128) / 128) ^ 2)).sum /
    buf.length)

/-- TS `getBandAverage` (lines 111-125): inclusive mean of the frequency
magnitudes over the clamped bin range; an inverted range yields 0. -/
noncomputable def getBandAverage (buf : List ℕ) (startBin endBin : ℤ) : ℝ :=
  let actualEnd := min endBin ((buf.length : ℤ) - 1)
  let actualStart := max startBin 0
  if actualEnd < actualStart then 0
  else
    ((List.range (actualEnd - actualStart + 1).toNat).map
        (fun j => (buf.getD (actualStart.toNat + j) 0 : ℝ))).sum /
      ((actualEnd : ℝ) - (actualStart : ℝ) + 1)

/-- The provider's mutable state: the module-level `audioAnalyzer` binding,
the per-track analyzer map, and the two reusable buffers. -/
structure AudioDataProviderState where
  analyzer : Option Analyzer
  trackAnalyzers : List (String × Analyzer)
  frequencyBuffer : List ℕ
  timeDomainBuffer : List ℕ

/-- TS `getEmptyFrameData` (lines 130-141): every metric is its neutral zero;
the buffers are returned as they stand. -/
noncomputable def getEmptyFrameData (s : AudioDataProviderState) (now : ℝ) :
    AudioFrameData :=
  ⟨s.frequencyBuffer, s.timeDomainBuffer, 0, 0, 0, 0, 0, now⟩

/-- The shared body of `getFrameData` and `getTrackFrameData` once an
analyzer is found: fill the buffers and compute all metrics. -/
noncomputable def computeFrame (s : AudioDataProviderState)
    (bands : FrequencyBands) (a : Analyzer) (now : ℝ) :
    AudioDataProviderState × AudioFrameData :=
  let s2 := { s with
    frequencyBuffer := a.freqData
    timeDomainBuffer := a.timeData }
  let rms := computeRMS s2.timeDomainBuffer
  let bassAvg := getBandAverage s2.frequencyBuffer bands.bass.start
    bands.bass.stop
  let midLowAvg := getBandAverage s2.frequencyBuffer bands.midLow.start
    bands.midLow.stop
  let midHighAvg := getBandAverage s2.frequencyBuffer bands.midHigh.start
    bands.midHigh.stop
  let trebleAvg := getBandAverage s2.frequencyBuffer bands.treble.start
    bands.treble.stop
  (s2, ⟨s2.frequencyBuffer, s2.timeDomainBuffer, rms, bassAvg, midLowAvg,
    midHighAvg, trebleAvg, now⟩)

/-- TS `getFrameData` (lines 58-85): the neutral snapshot when no analyzer is
available, else the computed frame. -/
noncomputable def getFrameData (s : AudioDataProviderState)
    (bands : FrequencyBands) (now : ℝ) :
    AudioDataProviderState × AudioFrameData :=
  match s.analyzer with
  | none => (s, getEmptyFrameData s now)
  | some a => computeFrame s bands a now

/-- TS `getTrackFrameData` (lines 176-204): like `getFrameData` but looking up
the per-track analyzer; an unregistered track id yields the neutral
snapshot. -/
noncomputable def getTrackFrameData (s : AudioDataProviderState)
    (bands : FrequencyBands) (trackId : String) (now : ℝ) :
    AudioDataProviderState × AudioFrameData :=
  match alistLookup s.trackAnalyzers trackId with
  | none => (s, getEmptyFrameData s now)
  | some a => computeFrame s bands a now

/-- TS `isAvailable` (lines 146-148). -/
def isAvailable (s : AudioDataProviderState) : Bool := s.analyzer.isSome

/-- TS `registerTrackAnalyzer` (lines 156-158). -/
def registerTrackAnalyzer (s : AudioDataProviderState) (trackId : String)
    (a : Analyzer) : AudioDataProviderState :=
  { s with trackAnalyzers := alistSet s.trackAnalyzers trackId a }

/-- TS `unregisterTrackAnalyzer` (lines 165-167). -/
def unregisterTrackAnalyzer (s : AudioDataProviderState) (trackId : String) :
    AudioDataProviderState :=
  { s with trackAnalyzers := alistErase s.trackAnalyzers trackId }

/-- C8: with no analyzer available `getFrameData` returns the neutral
snapshot (rms 0 and all four band averages 0) — it is a total function, not
an error path — `isAvailable()` is false, and `getTrackFrameData` for an
unregistered track id returns the same neutral snapshot. -/
theorem c8_no_analyzer_neutral_snapshot (s : AudioDataProviderState)
    (bands : FrequencyBands) (now : ℝ) (h : s.analyzer = none) :
    (getFrameData s bands now).2.rms = 0 ∧
    (getFrameData s bands now).2.bass = 0 ∧
    (getFrameData s bands now).2.midLow = 0 ∧
    (getFrameData s bands now).2.midHigh = 0 ∧
    (getFrameData s bands now).2.treble = 0 ∧
    isAvailable s = false ∧
    (∀ trackId, alistLookup s.trackAnalyzers trackId = none →
      (getTrackFrameData s bands trackId now).2 =
        (getFrameData s bands now).2) := by
  have hg : getFrameData s bands now = (s, getEmptyFrameData s now) := by
    simp only [getFrameData, h]
  rw [hg]
  refine ⟨rfl, rfl, rfl, rfl, rfl, ?_, ?_⟩
  · simp [isAvailable, h]
  · intro trackId htid
    have ht : getTrackFrameData s bands trackId now =
        (s, getEmptyFrameData s now) := by
      simp only [getTrackFrameData, htid]
    rw [ht]

/-- The sample frequency-band configuration (the documented default bins). -/
def sampleBands : FrequencyBands :=
  ⟨⟨0, 10⟩, ⟨11, 40⟩, ⟨41, 80⟩, ⟨81, 200⟩⟩

/-- Witness for C8 at a concrete analyzer-less provider state. -/
theorem c8_no_analyzer_neutral_snapshot_witness :
    (getFrameData ⟨none, [], [0, 0], [0, 0]⟩ sampleBands 0).2.rms = 0 ∧
    (getFrameData ⟨none, [], [0, 0], [0, 0]⟩ sampleBands 0).2.bass = 0 ∧
    (getFrameData ⟨none, [], [0, 0], [0, 0]⟩ sampleBands 0).2.midLow = 0 ∧
    (getFrameData ⟨none, [], [0, 0], [0, 0]⟩ sampleBands 0).2.midHigh = 0 ∧
    (getFrameData ⟨none, [], [0, 0], [0, 0]⟩ sampleBands 0).2.treble = 0 ∧
    isAvailable ⟨none, [], [0, 0], [0, 0]⟩ = false ∧
    (∀ trackId,
      alistLookup (AudioDataProviderState.trackAnalyzers
        ⟨none, [], [0, 0], [0, 0]⟩) trackId = none →
      (getTrackFrameData ⟨none, [], [0, 0], [0, 0]⟩ sampleBands trackId 0).2 =
        (getFrameData ⟨none, [], [0, 0], [0, 0]⟩ sampleBands 0).2) :=
  c8_no_analyzer_neutral_snapshot ⟨none, [], [0, 0], [0, 0]⟩ sampleBands 0 rfl

/-! ## EffectEngine (src/unnamed/part_020)

The engine treats effect instances as black boxes through the
`EffectInstance` interface, so an instance is modelled by the only data the
engine reads: its `id`, the `enabled` / `trackId` fields of its params, a
pure `step` function giving the output of its n-th `update` call, its stored
current output, and counters recording the lifecycle calls the engine has
made on it (`start`, `update`, `end`).  Outputs are abstracted to one real
number.  `requestAnimationFrame` scheduling is outside the model: `tick` is
invoked explicitly with the clock value `now` and the audio data the
provider would return (`global` for `getFrameData()`, `track t` for
`getTrackFrameData(t)`). -/

structure EffInstance where
  id : String
  enabled : Option Bool
  trackId : Option String
  step : AudioFrameData → ℝ → ℕ → ℝ
  currentOutput : ℝ
  startCalls : ℕ
  updateCalls : ℕ
  endCalls : ℕ

/-- TS `instance.start()`. -/
def instStart (i : EffInstance) : EffInstance :=
  { i with startCalls := i.startCalls + 1 }

/-- TS `instance.end()`. -/
def instEnd (i : EffInstance) : EffInstance :=
  { i with endCalls := i.endCalls + 1 }

/-- TS `instance.update(audioData, deltaTime)`: the n-th call yields
`step audioData deltaTime n` and stores it as the current output. -/
def instUpdate (i : EffInstance) (audioData : AudioFrameData)
    (deltaTime : ℝ) : EffInstance × ℝ :=
  let out := i.step audioData deltaTime i.updateCalls
  ({ i with updateCalls := i.updateCalls + 1, currentOutput := out }, out)

/-- TS `EffectEntry` (part_020 lines 27-31): instance, last output, and the set
of subscriber callbacks (callbacks are modelled by names). -/
structure EffectEntry where
  inst : EffInstance
  currentOutput : ℝ
  subscribers : List String

/-- The engine's state.  `graveyard` records, in order, the instances that
have been unregistered (each with `end()` applied), so that lifecycle claims
about displaced instances can be stated; the RAF handle is not modelled. -/
structure EngineState where
  effects : List (String × EffectEntry)
  lastFrameTime : ℝ
  frameCount : ℕ
  fpsHistory : List ℝ
  isRunning : Bool
  graveyard : List EffInstance

/-- The per-entry body of the tick loop (lines 243-267): a disabled entry
(`params.enabled === false`) is left untouched; otherwise the instance is
updated with its track's audio data (or the shared snapshot) and the new
output stored. -/
def entryStep (global : AudioFrameData) (track : String → AudioFrameData)
    (deltaTime : ℝ) (e : EffectEntry) : EffectEntry :=
  if e.inst.enabled = some false then e
  else
    let audioData := match e.inst.trackId with
      | some t => track t
      | none => global
    let u := instUpdate e.inst audioData deltaTime
    { inst := u.1, currentOutput := u.2, subscribers := e.subscribers }

/-- The subscriber callbacks invoked for one entry during a tick, tagged
with the effect id; a disabled entry notifies nobody. -/
def entryInvocations (id : String) (e : EffectEntry) :
    List (String × String) :=
  if e.inst.enabled = some false then []
  else e.subscribers.map (fun cb => (id, cb))

/-- TS `tick` (lines 224-271): returns early when not running; otherwise
advances the clock and FPS history, updates every entry in registration
order, and returns the invoked subscriber callbacks of the frame. -/
noncomputable def tick (s : EngineState) (now : ℝ) (global : AudioFrameData)
    (track : String → AudioFrameData) :
    EngineState × List (String × String) :=
  if s.isRunning = false then (s, [])
  else
    let deltaTime := now - s.lastFrameTime
    let fps := if 0 < deltaTime then 1000 / deltaTime else 60
    let hist0 := s.fpsHistory ++ [fps]
    let hist := if 60 < hist0.length then hist0.tail else hist0
    ({ s with
        lastFrameTime := now
        frameCount := s.frameCount + 1
        fpsHistory := hist
        effects := s.effects.map (fun p => (p.1, entryStep global track
          deltaTime p.2)) },
      (s.effects.map (fun p => entryInvocations p.1 p.2)).flatten)

/-- TS `start` (lines 201-207): no-op when already running, else mark running,
reset the frame clock and run one synchronous tick. -/
noncomputable def engineStart (s : EngineState) (now : ℝ) (global : AudioFrameData)
    (track : String → AudioFrameData) :
    EngineState × List (String × String) :=
  if s.isRunning = true then (s, [])
  else tick { s with isRunning := true, lastFrameTime := now } now global
    track

/-- TS `stop` (lines 212-218): cancel the frame loop. -/
def engineStop (s : EngineState) : EngineState :=
  { s with isRunning := false }

/-- TS `unregisterEffect` (lines 104-119): call `end()` on the found instance,
clear its subscribers and remove it; stop the loop when no effects remain. -/
def unregisterEffect (s : EngineState) (id : String) : EngineState :=
  let s2 :=
    match alistLookup s.effects id with
    | some entry =>
      { s with
          effects := alistErase s.effects id
          graveyard := s.graveyard ++ [instEnd entry.inst] }
    | none => s
  if s2.effects.length = 0 then engineStop s2 else s2

/-- TS `registerEffect` (lines 72-96): an already-registered id is first fully
unregistered; the instance is started and installed with its current output
and no subscribers; the loop starts if this is the first effect. -/
noncomputable def registerEffect (s : EngineState) (inst : EffInstance) (now : ℝ)
    (global : AudioFrameData) (track : String → AudioFrameData) :
    EngineState × List (String × String) :=
  let s2 := if (alistLookup s.effects inst.id).isSome = true then
      unregisterEffect s inst.id
    else s
  let started := instStart inst
  let newEntry : EffectEntry := ⟨started, started.currentOutput, []⟩
  let s3 := { s2 with effects := alistSet s2.effects inst.id newEntry }
  if s3.isRunning = false ∧ 0 < s3.effects.length then
    engineStart s3 now global track
  else (s3, [])

/-- TS `getEffectOutput` (lines 128-131). -/
def getEffectOutput (s : EngineState) (id : String) : Option ℝ :=
  (alistLookup s.effects id).map (fun e => e.currentOutput)

/-- TS `subscribe` (lines 141-149): add the callback to the entry's subscriber
set and return a real unsubscribe closure (`true`); for an unknown id the
state is untouched and the returned unsubscribe is the no-op (`false`). -/
def subscribe (s : EngineState) (id : String) (cb : String) :
    EngineState × Bool :=
  match alistLookup s.effects id with
  | some entry =>
    let entry2 := { entry with subscribers :=
      if cb ∈ entry.subscribers then entry.subscribers
      else entry.subscribers ++ [cb] }
    ({ s with effects := alistSet s.effects id entry2 }, true)
  | none => (s, false)

/-! ## Association-list lemmas -/

theorem alistLookup_alistSet_self {α : Type} (l : List (String × α))
    (k : String) (v : α) : alistLookup (alistSet l k v) k = some v := by
  induction l with
  | nil => simp [alistSet, alistLookup]
  | cons p t ih =>
    obtain ⟨k', v'⟩ := p
    by_cases h : k' = k
    · subst h; simp [alistSet, alistLookup]
    · simp [alistSet, alistLookup, h, ih]

theorem alistLookup_eq_none_of_not_mem {α : Type} (l : List (String × α))
    (k : String) (h : k ∉ l.map Prod.fst) : alistLookup l k = none := by
  induction l with
  | nil => rfl
  | cons p t ih =>
    obtain ⟨k', v'⟩ := p
    simp only [List.map_cons, List.mem_cons] at h
    push_neg at h
    have hk : ¬ k' = k := Ne.symm h.1
    simp [alistLookup, hk, ih h.2]

theorem not_mem_keys_alistErase {α : Type} (l : List (String × α))
    (k : String) (hnd : (l.map Prod.fst).Nodup) :
    k ∉ (alistErase l k).map Prod.fst := by
  induction l with
  | nil => simp [alistErase]
  | cons p t ih =>
    obtain ⟨k', v'⟩ := p
    simp only [List.map_cons, List.nodup_cons] at hnd
    by_cases h : k' = k
    · subst h
      simpa [alistErase] using hnd.1
    · simp only [alistErase, if_neg h, List.map_cons, List.mem_cons]
      push_neg
      exact ⟨fun hc => h hc.symm, ih hnd.2⟩

theorem mem_alistErase_sub {α : Type} (l : List (String × α)) (k : String)
    (p : String × α) (h : p ∈ alistErase l k) : p ∈ l := by
  induction l with
  | nil => simp [alistErase] at h
  | cons q t ih =>
    obtain ⟨k', v'⟩ := q
    by_cases hk : k' = k
    · subst hk
      simp only [alistErase, if_pos rfl] at h
      exact List.mem_cons_of_mem _ h
    · simp only [alistErase, if_neg hk, List.mem_cons] at h
      rcases h with h | h
      · subst h
        exact List.mem_cons_self _ _
      · exact List.mem_cons_of_mem _ (ih h)

theorem mem_alistSet {α : Type} (l : List (String × α)) (k : String) (v : α)
    (p : String × α) (h : p ∈ alistSet l k v) : p = (k, v) ∨ p ∈ l := by
  induction l with
  | nil =>
    left
    simp only [alistSet, List.mem_singleton] at h
    exact h
  | cons q t ih =>
    obtain ⟨k', v'⟩ := q
    by_cases hk : k' = k
    · subst hk
      simp [alistSet] at h
      rcases h with h | h
      · exact Or.inl h
      · exact Or.inr (List.mem_cons_of_mem _ h)
    · simp only [alistSet, if_neg hk, List.mem_cons] at h
      rcases h with h | h
      · exact Or.inr (h ▸ List.mem_cons_self _ _)
      · rcases ih h with h2 | h2
        · exact Or.inl h2
        · exact Or.inr (List.mem_cons_of_mem _ h2)

theorem mem_of_alistLookup {α : Type} (l : List (String × α)) (k : String)
    (v : α) (h : alistLookup l k = some v) : (k, v) ∈ l := by
  induction l with
  | nil => simp [alistLookup] at h
  | cons q t ih =>
    obtain ⟨k', v'⟩ := q
    by_cases hk : k' = k
    · subst hk
      simp [alistLookup] at h
      subst h
      exact List.mem_cons_self _ _
    · simp only [alistLookup, if_neg hk] at h
      exact List.mem_cons_of_mem _ (ih h)

theorem alistLookup_of_mem_nodup {α : Type} (l : List (String × α))
    (k : String) (v : α) (hnd : (l.map Prod.fst).Nodup) (h : (k, v) ∈ l) :
    alistLookup l k = some v := by
  induction l with
  | nil => simp at h
  | cons q t ih =>
    obtain ⟨k', v'⟩ := q
    simp only [List.map_cons, List.nodup_cons] at hnd
    rcases List.mem_cons.1 h with h | h
    · rw [Prod.ext_iff] at h
      obtain ⟨hk, hv⟩ := h
      dsimp at hk hv
      subst hk
      simp [alistLookup, hv.symm]
    · have hk : ¬ k' = k := by
        intro hc
        subst hc
        exact hnd.1 (List.mem_map_of_mem Prod.fst h)
      simp [alistLookup, hk, ih hnd.2 h]

theorem alistSet_eq_append_of_not_mem {α : Type} (l : List (String × α))
    (k : String) (v : α) (h : k ∉ l.map Prod.fst) :
    alistSet l k v = l ++ [(k, v)] := by
  induction l with
  | nil => rfl
  | cons q t ih =>
    obtain ⟨k', v'⟩ := q
    simp only [List.map_cons, List.mem_cons] at h
    push_neg at h
    have hk : ¬ k' = k := Ne.symm h.1
    simp [alistSet, hk, ih h.2]

theorem filter_key_nil_of_not_mem {α : Type} (l : List (String × α))
    (k : String) (h : k ∉ l.map Prod.fst) :
    l.filter (fun p => p.1 = k) = [] := by
  induction l with
  | nil => rfl
  | cons q t ih =>
    obtain ⟨k', v'⟩ := q
    simp only [List.map_cons, List.mem_cons] at h
    push_neg at h
    have hk : ¬ k' = k := Ne.symm h.1
    simp [List.filter_cons, hk, ih h.2]

theorem alistLookup_mapSnd {α β : Type} (f : α → β) (l : List (String × α))
    (k : String) :
    alistLookup (l.map (fun p => (p.1, f p.2))) k =
      (alistLookup l k).map f := by
  induction l with
  | nil => rfl
  | cons q t ih =>
    obtain ⟨k', v'⟩ := q
    by_cases hk : k' = k
    · subst hk; simp [alistLookup]
    · simp [alistLookup, hk, ih]

theorem filter_key_mapSnd {α β : Type} (f : α → β) (l : List (String × α))
    (k : String) :
    (l.map (fun p => (p.1, f p.2))).filter (fun p => p.1 = k) =
      (l.filter (fun p => p.1 = k)).map (fun p => (p.1, f p.2)) := by
  induction l with
  | nil => rfl
  | cons q t ih =>
    obtain ⟨k', v'⟩ := q
    by_cases hk : k' = k
    · subst hk; simp [List.filter_cons, ih]
    · simp [List.filter_cons, hk, ih]

/-! ## Entry-step lemmas -/

theorem entryStep_inst_id (global : AudioFrameData)
    (track : String → AudioFrameData) (dt : ℝ) (e : EffectEntry) :
    (entryStep global track dt e).inst.id = e.inst.id ∧
    (entryStep global track dt e).inst.endCalls = e.inst.endCalls ∧
    (entryStep global track dt e).inst.startCalls = e.inst.startCalls ∧
    (entryStep global track dt e).subscribers = e.subscribers := by
  by_cases h : e.inst.enabled = some false <;>
    simp [entryStep, h, instUpdate]

theorem entryInvocations_fst (id : String) (e : EffectEntry)
    (x : String × String) (h : x ∈ entryInvocations id e) : x.1 = id := by
  by_cases hd : e.inst.enabled = some false
  · simp [entryInvocations, hd] at h
  · simp only [entryInvocations, if_neg hd, List.mem_map] at h
    obtain ⟨cb, _, hx⟩ := h
    simp [← hx]

/-! ## Engine lemmas -/

/-- Unregistering a present id erases its entry and appends the ended
instance to the graveyard, whether or not the loop stops. -/
theorem unregisterEffect_found (s : EngineState) (id : String)
    (entry : EffectEntry) (h : alistLookup s.effects id = some entry) :
    (unregisterEffect s id).effects = alistErase s.effects id ∧
    (unregisterEffect s id).graveyard =
      s.graveyard ++ [instEnd entry.inst] := by
  simp only [unregisterEffect, h]
  by_cases hlen : (alistErase s.effects id).length = 0 <;>
    simp [hlen, engineStop]

/-- A running tick maps `entryStep` over the entries in place, keeps the
graveyard and the running flag, and emits the per-entry invocations. -/
theorem tick_running (s : EngineState) (now : ℝ) (g : AudioFrameData)
    (tr : String → AudioFrameData) (hrun : s.isRunning = true) :
    (tick s now g tr).1.effects = s.effects.map
      (fun p => (p.1, entryStep g tr (now - s.lastFrameTime) p.2)) ∧
    (tick s now g tr).1.graveyard = s.graveyard ∧
    (tick s now g tr).1.isRunning = true ∧
    (tick s now g tr).2 =
      (s.effects.map (fun p => entryInvocations p.1 p.2)).flatten := by
  simp [tick, hrun]

/-- Inserting a fresh key appends, so exactly one entry carries it. -/
theorem filter_count_alistSet {α : Type} (l : List (String × α)) (k : String)
    (v : α) (h : k ∉ l.map Prod.fst) :
    ((alistSet l k v).filter (fun p => p.1 = k)).length = 1 := by
  rw [alistSet_eq_append_of_not_mem _ _ _ h, List.filter_append,
    filter_key_nil_of_not_mem _ _ h]
  simp

/-- C4: registering an effect on an idle engine with no effects starts the
loop; unregistering the last remaining effect stops it; and registering an
id that is already present leaves exactly one entry under that id — the new
instance, never ended — while the displaced instance receives exactly one
`end()` call (it is appended, ended, to the graveyard). -/
theorem c4_engine_register_lifecycle :
    (∀ (s : EngineState) (inst : EffInstance) (now : ℝ)
        (g : AudioFrameData) (tr : String → AudioFrameData),
      s.effects = [] → s.isRunning = false →
      ((registerEffect s inst now g tr).1).isRunning = true) ∧
    (∀ (s : EngineState) (id : String) (e : EffectEntry),
      s.effects = [(id, e)] → (unregisterEffect s id).isRunning = false) ∧
    (∀ (s : EngineState) (inst : EffInstance) (now : ℝ)
        (g : AudioFrameData) (tr : String → AudioFrameData) (e : EffectEntry),
      alistLookup s.effects inst.id = some e →
      (s.effects.map Prod.fst).Nodup →
      ((((registerEffect s inst now g tr).1).effects.filter
          (fun p => p.1 = inst.id)).length = 1 ∧
        ((registerEffect s inst now g tr).1).graveyard =
          s.graveyard ++ [instEnd e.inst] ∧
        ∃ e2, alistLookup ((registerEffect s inst now g tr).1).effects
            inst.id = some e2 ∧
          e2.inst.id = inst.id ∧ e2.inst.endCalls = inst.endCalls ∧
          e2.inst.startCalls = inst.startCalls + 1)) := by
  refine ⟨?_, ?_, ?_⟩
  · intro s inst now g tr heff hrun
    simp [registerEffect, heff, hrun, alistLookup, alistSet, engineStart,
      tick]
  · intro s id e heff
    simp [unregisterEffect, heff, alistLookup, alistErase, engineStop]
  · intro s inst now g tr e hl hnd
    have hcond : (alistLookup s.effects inst.id).isSome = true := by
      rw [hl]; rfl
    obtain ⟨hur_eff, hur_grave⟩ := unregisterEffect_found s inst.id e hl
    have hkE : inst.id ∉ (alistErase s.effects inst.id).map Prod.fst :=
      not_mem_keys_alistErase _ _ hnd
    simp only [registerEffect]
    rw [if_pos hcond]
    rw [hur_eff]
    set nE : EffectEntry :=
      ⟨instStart inst, (instStart inst).currentOutput, []⟩ with hnE
    set E2 := alistSet (alistErase s.effects inst.id) inst.id nE with hE2
    have hcount : (E2.filter (fun p => p.1 = inst.id)).length = 1 :=
      filter_count_alistSet _ _ _ hkE
    have hlook : alistLookup E2 inst.id = some nE :=
      alistLookup_alistSet_self _ _ _
    have hlen : 0 < E2.length := by
      rw [hE2, alistSet_eq_append_of_not_mem _ _ _ hkE]
      simp
    have hfields : nE.inst.id = inst.id ∧ nE.inst.endCalls = inst.endCalls ∧
        nE.inst.startCalls = inst.startCalls + 1 := by
      simp [hnE, instStart]
    cases hrun : (unregisterEffect s inst.id).isRunning
    case true =>
      rw [if_neg (by simp [hrun])]
      exact ⟨hcount, hur_grave, nE, hlook, hfields.1, hfields.2.1,
        hfields.2.2⟩
    case false =>
      rw [if_pos (by simp [hrun, hlen])]
      rw [engineStart]
      rw [if_neg (by simp [hrun])]
      have htick := tick_running
        { unregisterEffect s inst.id with
            effects := E2
            isRunning := true
            lastFrameTime := now } now g tr rfl
      refine ⟨?_, ?_, ?_⟩
      · rw [htick.1]
        simp only [filter_key_mapSnd, List.length_map]
        exact hcount
      · rw [htick.2.1]
        exact hur_grave
      · refine ⟨entryStep g tr (now - now) nE, ?_, ?_, ?_, ?_⟩
        · rw [htick.1]
          rw [alistLookup_mapSnd]
          rw [hlook]
          rfl
        · rw [(entryStep_inst_id g tr (now - now) nE).1]
          exact hfields.1
        · rw [(entryStep_inst_id g tr (now - now) nE).2.1]
          exact hfields.2.1
        · rw [(entryStep_inst_id g tr (now - now) nE).2.2.1]
          exact hfields.2.2

/-- A concrete effect instance (id "bg", enabled, no track). -/
noncomputable def c4Inst : EffInstance :=
  ⟨"bg", some true, none, fun _ _ _ => 0, 0, 0, 0, 0⟩

/-- A second instance with the same id, for duplicate registration. -/
noncomputable def c4InstB : EffInstance :=
  ⟨"bg", some true, none, fun _ _ _ => 1, 1, 0, 0, 0⟩

/-- The entry registered under "bg" in the one-effect state. -/
noncomputable def c4OldEntry : EffectEntry := ⟨c4Inst, 0, []⟩

/-- An idle engine with no effects. -/
noncomputable def idleState : EngineState := ⟨[], 0, 0, [], false, []⟩

/-- A running engine with the single effect "bg". -/
noncomputable def oneEffState : EngineState :=
  ⟨[("bg", c4OldEntry)], 0, 0, [], true, []⟩

/-- Per-track audio lookup that always returns the silent snapshot. -/
noncomputable def silentTrack : String → AudioFrameData :=
  fun _ => silentSnapshot

/-- Witness for C4 at concrete states: an idle→running registration, a
running→idle unregistration, and a duplicate registration. -/
theorem c4_engine_register_lifecycle_witness :
    ((registerEffect idleState c4Inst 0 silentSnapshot
      silentTrack).1).isRunning = true ∧
    (unregisterEffect oneEffState "bg").isRunning = false ∧
    ((((registerEffect oneEffState c4InstB 0 silentSnapshot
        silentTrack).1).effects.filter
        (fun p => p.1 = c4InstB.id)).length = 1 ∧
      ((registerEffect oneEffState c4InstB 0 silentSnapshot
        silentTrack).1).graveyard =
        oneEffState.graveyard ++ [instEnd c4OldEntry.inst] ∧
      ∃ e2, alistLookup ((registerEffect oneEffState c4InstB 0 silentSnapshot
          silentTrack).1).effects c4InstB.id = some e2 ∧
        e2.inst.id = c4InstB.id ∧ e2.inst.endCalls = c4InstB.endCalls ∧
        e2.inst.startCalls = c4InstB.startCalls + 1) :=
  ⟨c4_engine_register_lifecycle.1 idleState c4Inst 0 silentSnapshot
      silentTrack rfl rfl,
    c4_engine_register_lifecycle.2.1 oneEffState "bg" c4OldEntry rfl,
    c4_engine_register_lifecycle.2.2 oneEffState c4InstB 0 silentSnapshot
      silentTrack c4OldEntry rfl (by simp [oneEffState])⟩

/-- C9: during a running tick, a registered entry whose params have
`enabled === false` is left entirely untouched — its entry (instance state
and stored output) is unchanged, `getEffectOutput` returns the same value as
before the tick, and none of its subscriber callbacks are invoked — while
every other registered entry is processed: its instance's `update` is called
exactly once (producing the entry recorded by `entryStep`) and all of its
subscribers are notified. -/
theorem c9_disabled_effect_untouched (s : EngineState) (now : ℝ)
    (g : AudioFrameData) (tr : String → AudioFrameData) (id : String)
    (e : EffectEntry) (hrun : s.isRunning = true)
    (hnd : (s.effects.map Prod.fst).Nodup)
    (hl : alistLookup s.effects id = some e)
    (hdis : e.inst.enabled = some false) :
    alistLookup ((tick s now g tr).1).effects id = some e ∧
    getEffectOutput ((tick s now g tr).1) id = getEffectOutput s id ∧
    (∀ cb, (id, cb) ∉ (tick s now g tr).2) ∧
    (∀ id2 e2, alistLookup s.effects id2 = some e2 →
      ¬ e2.inst.enabled = some false →
      (alistLookup ((tick s now g tr).1).effects id2 =
        some (entryStep g tr (now - s.lastFrameTime) e2) ∧
        (entryStep g tr (now - s.lastFrameTime) e2).inst.updateCalls =
          e2.inst.updateCalls + 1) ∧
      ∀ cb ∈ e2.subscribers, (id2, cb) ∈ (tick s now g tr).2) := by
  obtain ⟨hte, _, _, hti⟩ := tick_running s now g tr hrun
  have hdisStep : entryStep g tr (now - s.lastFrameTime) e = e := by
    simp [entryStep, hdis]
  have h1 : alistLookup ((tick s now g tr).1).effects id = some e := by
    rw [hte, alistLookup_mapSnd, hl]
    simp only [Option.map_some']
    rw [hdisStep]
  refine ⟨h1, ?_, ?_, ?_⟩
  · simp only [getEffectOutput, h1, hl]
  · intro cb hmem
    rw [hti] at hmem
    obtain ⟨l2, hl2, hx⟩ := List.mem_flatten.1 hmem
    obtain ⟨p, hp, hpe⟩ := List.mem_map.1 hl2
    subst hpe
    have hfst : ((id, cb) : String × String).1 = p.1 :=
      entryInvocations_fst p.1 p.2 _ hx
    have hpid : p.1 = id := hfst.symm
    have hlp : alistLookup s.effects p.1 = some p.2 :=
      alistLookup_of_mem_nodup _ _ _ hnd (by
        obtain ⟨a, b⟩ := p
        exact hp)
    rw [hpid, hl] at hlp
    obtain rfl : p.2 = e := by
      simpa using hlp.symm
    simp [entryInvocations, hdis] at hx
  · intro id2 e2 hl2 hen2
    refine ⟨⟨?_, ?_⟩, ?_⟩
    · rw [hte, alistLookup_mapSnd, hl2]
      rfl
    · simp [entryStep, hen2, instUpdate]
    · intro cb hcb
      rw [hti]
      refine List.mem_flatten.2 ⟨entryInvocations id2 e2, ?_, ?_⟩
      · have hp : (id2, e2) ∈ s.effects := mem_of_alistLookup _ _ _ hl2
        exact List.mem_map_of_mem (fun p => entryInvocations p.1 p.2) hp
      · simp only [entryInvocations, if_neg hen2]
        exact List.mem_map_of_mem (fun cb => (id2, cb)) hcb

/-- The disabled entry of the C9 witness state. -/
noncomputable def c9DisabledEntry : EffectEntry :=
  ⟨⟨"a", some false, none, fun _ _ _ => 1, 5, 1, 1, 0⟩, 5, ["cbA"]⟩

/-- The enabled entry of the C9 witness state. -/
noncomputable def c9EnabledEntry : EffectEntry :=
  ⟨⟨"b", some true, none, fun _ _ _ => 2, 7, 1, 1, 0⟩, 7, ["cbB"]⟩

/-- A running engine with a disabled effect "a" and an enabled effect "b". -/
noncomputable def c9State : EngineState :=
  ⟨[("a", c9DisabledEntry), ("b", c9EnabledEntry)], 0, 0, [], true, []⟩

/-- Witness for C9 at a concrete two-effect state. -/
theorem c9_disabled_effect_untouched_witness :
    alistLookup ((tick c9State 16.67 silentSnapshot silentTrack).1).effects
      "a" = some c9DisabledEntry ∧
    getEffectOutput ((tick c9State 16.67 silentSnapshot silentTrack).1) "a" =
      getEffectOutput c9State "a" ∧
    (∀ cb, ("a", cb) ∉ (tick c9State 16.67 silentSnapshot silentTrack).2) ∧
    (∀ id2 e2, alistLookup c9State.effects id2 = some e2 →
      ¬ e2.inst.enabled = some false →
      (alistLookup ((tick c9State 16.67 silentSnapshot
          silentTrack).1).effects id2 =
        some (entryStep silentSnapshot silentTrack
          (16.67 - c9State.lastFrameTime) e2) ∧
        (entryStep silentSnapshot silentTrack (16.67 - c9State.lastFrameTime)
          e2).inst.updateCalls = e2.inst.updateCalls + 1) ∧
      ∀ cb ∈ e2.subscribers,
        (id2, cb) ∈ (tick c9State 16.67 silentSnapshot silentTrack).2) :=
  c9_disabled_effect_untouched c9State 16.67 silentSnapshot silentTrack "a"
    c9DisabledEntry rfl (by simp [c9State]) rfl rfl

/-! ## C10: subscribing to an unregistered id -/

/-- TS `cb` is stored in no entry's subscriber set of `s`. -/
def cbFree (s : EngineState) (cb : String) : Prop :=
  ∀ p ∈ s.effects, cb ∉ p.2.subscribers

/-- The engine operations a caller can perform after the subscription. -/
inductive EngOp where
  | reg (inst : EffInstance) (now : ℝ) (g : AudioFrameData)
      (tr : String → AudioFrameData)
  | unreg (eid : String)
  | sub (eid cb : String)
  | tickOp (now : ℝ) (g : AudioFrameData) (tr : String → AudioFrameData)

/-- One engine operation, together with the subscriber invocations it causes
(registration can run a synchronous first tick). -/
noncomputable def applyOp (s : EngineState) :
    EngOp → EngineState × List (String × String)
  | .reg inst now g tr => registerEffect s inst now g tr
  | .unreg eid => (unregisterEffect s eid, [])
  | .sub eid cb => ((subscribe s eid cb).1, [])
  | .tickOp now g tr => tick s now g tr

/-- A sequence of engine operations, accumulating all invocations. -/
noncomputable def runOps :
    EngineState → List EngOp → EngineState × List (String × String)
  | s, [] => (s, [])
  | s, op :: ops =>
    let r := applyOp s op
    let r2 := runOps r.1 ops
    (r2.1, r.2 ++ r2.2)

/-- Whether the operation subscribes the callback `cb` (to any id). -/
def opSubscribes : EngOp → String → Prop
  | .sub _ c, cb => c = cb
  | _, _ => False

theorem mem_unregister_sub (s : EngineState) (id : String)
    (p : String × EffectEntry) (hp : p ∈ (unregisterEffect s id).effects) :
    p ∈ s.effects := by
  rcases hl : alistLookup s.effects id with _ | entry <;>
    simp only [unregisterEffect, hl] at hp
  · split at hp <;> exact hp
  · split at hp <;> exact mem_alistErase_sub _ _ _ hp

theorem cbFree_unregister (s : EngineState) (id cb : String)
    (hfree : cbFree s cb) : cbFree (unregisterEffect s id) cb :=
  fun p hp => hfree p (mem_unregister_sub s id p hp)

theorem cbFree_tick (s : EngineState) (cb : String) (now : ℝ)
    (g : AudioFrameData) (tr : String → AudioFrameData)
    (hfree : cbFree s cb) :
    cbFree (tick s now g tr).1 cb ∧
    ∀ x ∈ (tick s now g tr).2, x.2 ≠ cb := by
  by_cases hrun : s.isRunning = false
  · have ht : tick s now g tr = (s, []) := by simp [tick, hrun]
    rw [ht]
    exact ⟨hfree, by simp⟩
  · have hrun2 : s.isRunning = true := by
      revert hrun; cases s.isRunning <;> simp
    obtain ⟨hte, _, _, hti⟩ := tick_running s now g tr hrun2
    constructor
    · intro p hp
      rw [hte] at hp
      obtain ⟨q, hq, hqe⟩ := List.mem_map.1 hp
      have hsub : p.2.subscribers = q.2.subscribers := by
        rw [← hqe]
        exact (entryStep_inst_id g tr (now - s.lastFrameTime) q.2).2.2.2
      rw [hsub]
      exact hfree q hq
    · intro x hx
      rw [hti] at hx
      obtain ⟨l2, hl2, hxl⟩ := List.mem_flatten.1 hx
      obtain ⟨q, hq, hqe⟩ := List.mem_map.1 hl2
      subst hqe
      by_cases hd : q.2.inst.enabled = some false
      · simp [entryInvocations, hd] at hxl
      · simp only [entryInvocations, if_neg hd, List.mem_map] at hxl
        obtain ⟨cb2, hcb2, hxe⟩ := hxl
        intro hc
        rw [← hxe] at hc
        dsimp at hc
        subst hc
        exact hfree q hq hcb2

theorem cbFree_engineStart (s : EngineState) (cb : String) (now : ℝ)
    (g : AudioFrameData) (tr : String → AudioFrameData)
    (hfree : cbFree s cb) :
    cbFree (engineStart s now g tr).1 cb ∧
    ∀ x ∈ (engineStart s now g tr).2, x.2 ≠ cb := by
  rw [engineStart]
  split
  · exact ⟨hfree, by simp⟩
  · exact cbFree_tick { s with isRunning := true, lastFrameTime := now } cb
      now g tr hfree

theorem cbFree_register (s : EngineState) (inst : EffInstance) (cb : String)
    (now : ℝ) (g : AudioFrameData) (tr : String → AudioFrameData)
    (hfree : cbFree s cb) :
    cbFree (registerEffect s inst now g tr).1 cb ∧
    ∀ x ∈ (registerEffect s inst now g tr).2, x.2 ≠ cb := by
  rw [registerEffect]
  have hfree2 : cbFree (if (alistLookup s.effects inst.id).isSome = true then
      unregisterEffect s inst.id else s) cb := by
    split
    · exact cbFree_unregister s inst.id cb hfree
    · exact hfree
  set s2 := if (alistLookup s.effects inst.id).isSome = true then
    unregisterEffect s inst.id else s with hs2
  have hfree3 : cbFree { s2 with effects := (alistSet s2.effects inst.id
      ⟨instStart inst, (instStart inst).currentOutput, []⟩) } cb := by
    intro p hp
    rcases mem_alistSet _ _ _ _ hp with hpe | hp2
    · rw [hpe]
      simp
    · exact hfree2 p hp2
  split
  · exact cbFree_engineStart _ cb now g tr hfree3
  · exact ⟨hfree3, by simp⟩

theorem cbFree_subscribe (s : EngineState) (id cb2 cb : String)
    (hne : ¬ cb2 = cb) (hfree : cbFree s cb) :
    cbFree (subscribe s id cb2).1 cb := by
  intro p hp
  rcases hl : alistLookup s.effects id with _ | entry <;>
    simp only [subscribe, hl] at hp
  · exact hfree p hp
  · rcases mem_alistSet _ _ _ _ hp with hpe | hp2
    · rw [hpe]
      have hold : cb ∉ entry.subscribers :=
        hfree (id, entry) (mem_of_alistLookup _ _ _ hl)
      dsimp only
      split
      · exact hold
      · simp only [List.mem_append, List.mem_singleton]
        push_neg
        exact ⟨hold, fun hc => hne hc.symm⟩
    · exact hfree p hp2

theorem applyOp_cbFree (s : EngineState) (op : EngOp) (cb : String)
    (hfree : cbFree s cb) (hop : ¬ opSubscribes op cb) :
    cbFree (applyOp s op).1 cb ∧ ∀ x ∈ (applyOp s op).2, x.2 ≠ cb := by
  cases op with
  | reg inst now g tr => exact cbFree_register s inst cb now g tr hfree
  | unreg eid =>
    exact ⟨cbFree_unregister s eid cb hfree, by simp [applyOp]⟩
  | sub eid cb2 =>
    exact ⟨cbFree_subscribe s eid cb2 cb hop hfree, by simp [applyOp]⟩
  | tickOp now g tr => exact cbFree_tick s cb now g tr hfree

theorem runOps_cbFree (ops : List EngOp) :
    ∀ (s : EngineState) (cb : String), cbFree s cb →
    (∀ op ∈ ops, ¬ opSubscribes op cb) →
    cbFree (runOps s ops).1 cb ∧ ∀ x ∈ (runOps s ops).2, x.2 ≠ cb := by
  induction ops with
  | nil =>
    intro s cb hfree _
    exact ⟨hfree, by simp [runOps]⟩
  | cons op ops ih =>
    intro s cb hfree hops
    have h1 := applyOp_cbFree s op cb hfree (hops op (List.mem_cons_self _ _))
    have h2 := ih (applyOp s op).1 cb h1.1
      (fun o ho => hops o (List.mem_cons_of_mem _ ho))
    refine ⟨h2.1, ?_⟩
    simp only [runOps]
    intro x hx
    rcases List.mem_append.1 hx with hx | hx
    · exact h1.2 x hx
    · exact h2.2 x hx

/-- C10: subscribing with an id that is not registered never throws — it
returns the no-op unsubscribe (`false`), leaves the engine state untouched,
and the callback — being stored nowhere — is never invoked on any subsequent
tick caused by any sequence of register / unregister / subscribe(with other
callbacks) / tick operations, even when an effect with that id is registered
later. -/
theorem c10_subscribe_unknown_id_noop (s : EngineState) (eid cb : String)
    (h : alistLookup s.effects eid = none) (hfree : cbFree s cb) :
    (subscribe s eid cb).1 = s ∧ (subscribe s eid cb).2 = false ∧
    ∀ ops : List EngOp, (∀ op ∈ ops, ¬ opSubscribes op cb) →
      cbFree (runOps (subscribe s eid cb).1 ops).1 cb ∧
      ∀ x ∈ (runOps (subscribe s eid cb).1 ops).2, x.2 ≠ cb := by
  have hsub : subscribe s eid cb = (s, false) := by
    simp [subscribe, h]
  refine ⟨by rw [hsub], by rw [hsub], ?_⟩
  intro ops hops
  rw [hsub]
  exact runOps_cbFree ops s cb hfree hops

/-- The operations of the C10 witness: register an effect with the very id
that was subscribed to, then run a tick. -/
noncomputable def c10Ops : List EngOp :=
  [.reg c4Inst 0 silentSnapshot silentTrack,
    .tickOp 16.67 silentSnapshot silentTrack]

/-- Witness for C10: subscribing "cb1" to the unregistered id "bg" on the
idle engine, then registering "bg" and ticking — the callback is never
stored nor invoked. -/
theorem c10_subscribe_unknown_id_noop_witness :
    (subscribe idleState "bg" "cb1").1 = idleState ∧
    (subscribe idleState "bg" "cb1").2 = false ∧
    (cbFree (runOps (subscribe idleState "bg" "cb1").1 c10Ops).1 "cb1" ∧
      ∀ x ∈ (runOps (subscribe idleState "bg" "cb1").1 c10Ops).2,
        x.2 ≠ "cb1") := by
  have base := c10_subscribe_unknown_id_noop idleState "bg" "cb1" rfl
    (by intro p hp; simp [idleState] at hp)
  refine ⟨base.1, base.2.1, base.2.2 c10Ops ?_⟩
  intro op hop
  rcases List.mem_cons.1 hop with hope | hop2
  · subst hope
    simp [opSubscribes]
  · rcases List.mem_cons.1 hop2 with hope | hop3
    · subst hope
      simp [opSubscribes]
    · simp at hop3

end Norstep
